import Mathlib

/-!
# An mTLS "hello" server: embedding of `server.go` and its contract

`server.go` is a single `main`: it reads `ca.crt`, builds a certificate pool,
registers one route on a `ServeMux`, builds an `http.Server` whose TLS
configuration demands verified client certificates, prints a banner and calls
`ListenAndServeTLS`.

Layout of this development:

* values of the Go standard library that `main` touches (`x509.CertPool`,
  `tls.Config`, `http.ServeMux`, `http.Server`);
* `main` itself as a small-step machine, one program point per source statement;
* the behaviour of a served connection (handshake, then dispatch of requests), and what
  the library writes to the server when serving starts;
* the theorems.

Only `main` and its function literal are code of `server.go`. Everything named after a
package of the Go standard library (`x509`, `tls`, `net/http`, `fmt`, `path`) is library
code that `server.go` calls and does not contain; it is written down here after the
library's documented behaviour, as of Go 1.21 where releases differ, and its
cryptographic and string-formatting primitives are fields of `Lib`. The parts of the
library on which the spec itself makes promises (handshake and connection loop) say so in
their doc comments.
-/

namespace MTLS

/-! ## Plain values -/

/-- Contents of a file, a Go `[]byte`. -/
abbrev Bytes := List UInt8

/-- A non-nil Go `error`, identified by its message. A nil error is `Option.none`. -/
structure Error where
  msg : String
  deriving DecidableEq

/-- An X.509 certificate, identified by its DER encoding. -/
structure Certificate where
  raw : Bytes
  deriving DecidableEq

/-- One call made on an `http.ResponseWriter`. -/
inductive WriterCall where
  | setHeader (key value : String)
  | writeHeader (code : Nat)
  | write (data : String)
  deriving DecidableEq

/-- An `http.ResponseWriter`, as the sequence of calls made on it so far. -/
structure ResponseWriter where
  calls : List WriterCall := []
  deriving DecidableEq

/-- The fields of an `*http.Request` that routing and handlers can look at. -/
structure Request where
  Method : String
  RequestURI : String
  Host : String
  URLHost : String
  Path : String
  RawQuery : String
  ProtoMajor : Nat
  ProtoMinor : Nat
  Header : List (String × String)
  Body : Bytes
  deriving DecidableEq

/-- Primitives of the Go standard library that are taken as given. -/
structure Lib where
  /-- Certificates that `encoding/pem` and `x509.ParseCertificate` extract from PEM text,
  in order; blocks that are not well-formed certificates are skipped. -/
  pemCertificates : Bytes → List Certificate
  /-- Whether `parent` is an acceptable issuer of `child`: signature, CA flag, name
  constraints. -/
  signedBy : (child parent : Certificate) → Bool
  /-- Whether a certificate passes the checks that do not involve an issuer: validity
  period, client-authentication key usage. -/
  leafUsable : Certificate → Bool
  /-- The roots `x509` falls back on when a nil pool is given. -/
  systemRoots : List Certificate
  /-- The function `stripHostPort` of `net/http`. -/
  stripHostPort : String → String
  /-- The function `(*url.URL).String` for a URL with only a path and a raw query. -/
  urlString : (path rawQuery : String) → String
  /-- The value `http.Redirect` stores under `Location` for a target URL. -/
  redirectLocation : Request → (url : String) → String
  /-- The HTML note `http.Redirect` writes after the header of a GET. -/
  redirectNote : (url : String) → (code : Nat) → String

/-! ## crypto/x509: certificate pools -/

/-- An `x509.CertPool`: the distinct certificates added so far, in order. -/
structure CertPool where
  certs : List Certificate
  deriving DecidableEq

/-- The function `x509.NewCertPool`. -/
def NewCertPool : CertPool := ⟨[]⟩

/-- The method `(*CertPool).AddCert`: a certificate already present is not added again. -/
def CertPool.AddCert (s : CertPool) (c : Certificate) : CertPool :=
  if c ∈ s.certs then s else ⟨s.certs ++ [c]⟩

/-- The method `(*CertPool).AppendCertsFromPEM`: adds every certificate found in the PEM
text and reports whether there was at least one. -/
def CertPool.AppendCertsFromPEM (L : Lib) (s : CertPool) (pemCerts : Bytes) :
    CertPool × Bool :=
  let found := L.pemCertificates pemCerts
  (found.foldl CertPool.AddCert s, !found.isEmpty)

/-! ## crypto/tls: configuration -/

/-- The type `tls.ClientAuthType`, in declaration order. -/
inductive ClientAuthType where
  | NoClientCert
  | RequestClientCert
  | RequireAnyClientCert
  | VerifyClientCertIfGiven
  | RequireAndVerifyClientCert
  deriving DecidableEq

/-- The integer value of a `ClientAuthType`. -/
def ClientAuthType.toNat : ClientAuthType → Nat
  | .NoClientCert => 0
  | .RequestClientCert => 1
  | .RequireAnyClientCert => 2
  | .VerifyClientCertIfGiven => 3
  | .RequireAndVerifyClientCert => 4

def VersionTLS10 : Nat := 0x0301
def VersionTLS11 : Nat := 0x0302
def VersionTLS12 : Nat := 0x0303
def VersionTLS13 : Nat := 0x0304

/-- What a client puts on the wire during the handshake, as far as the server's policy is
concerned. -/
structure ClientHello where
  /-- Protocol versions the client offers. -/
  supportedVersions : List Nat
  /-- Server name indication. -/
  serverName : String
  /-- Chain sent in the client's Certificate message, leaf first; empty when the client
  sends none. -/
  certificates : List Certificate
  deriving DecidableEq

/-- A `tls.Config`. Every field defaults to its Go zero value, so a structure instance
that names some fields is the Go composite literal naming the same fields. Callback fields
are `none` for nil. -/
structure Config where
  Certificates : List (List Certificate) := []
  GetCertificate : Option (ClientHello → Option (List Certificate)) := none
  GetClientCertificate : Option (Unit → Option (List Certificate)) := none
  VerifyPeerCertificate : Option (List Bytes → Option Error) := none
  VerifyConnection : Option (ClientHello → Option Error) := none
  RootCAs : Option CertPool := none
  NextProtos : List String := []
  ServerName : String := ""
  ClientAuth : ClientAuthType := .NoClientCert
  ClientCAs : Option CertPool := none
  InsecureSkipVerify : Bool := false
  CipherSuites : List Nat := []
  PreferServerCipherSuites : Bool := false
  SessionTicketsDisabled : Bool := false
  MinVersion : Nat := 0
  MaxVersion : Nat := 0
  CurvePreferences : List Nat := []
  DynamicRecordSizingDisabled : Bool := false
  Renegotiation : Nat := 0

/-! ## net/http: multiplexer and server values -/

/-- The objects of the running server that a handler can reach besides its writer and its
request: the certificate pool, through the variable `caCertPool` that a function literal
of `main` may capture, and the TLS configuration of the server, through the server that
net/http puts into the request context. In the running program `TLSConfig.ClientCAs` and
`caCertPool` are one object; here each is a value. -/
structure Shared where
  caCertPool : CertPool
  TLSConfig : Option Config

/-- An `http.Handler`: it acts on the writer it is given, and it may write to the shared
objects; it returns both as it leaves them. -/
abbrev Handler := ResponseWriter → Request → Shared → Shared × ResponseWriter

/-- An entry of a `ServeMux`. -/
structure muxEntry where
  h : Handler
  pattern : String

/-- An `http.ServeMux`: `m` maps each registered pattern to its entry, `es` holds the
entries whose pattern ends in a slash, longest pattern first, and `hosts` records whether
some pattern names a host. -/
structure ServeMux where
  m : List muxEntry := []
  es : List muxEntry := []
  hosts : Bool := false

/-- The function `http.NewServeMux`. -/
def NewServeMux : ServeMux := {}

/-- Lookup in the pattern map `m`. -/
def ServeMux.lookup (mux : ServeMux) (pattern : String) : Option muxEntry :=
  mux.m.find? (fun e => e.pattern == pattern)

/-- The helper `appendSorted` of `net/http`: insert before the first entry with a strictly
shorter pattern. -/
def appendSorted : List muxEntry → muxEntry → List muxEntry
  | [], e => [e]
  | x :: xs, e =>
    if x.pattern.utf8ByteSize < e.pattern.utf8ByteSize then e :: x :: xs
    else x :: appendSorted xs e

/-- The method `(*ServeMux).Handle`. It panics, here `Except.error`, on an empty pattern
and on a pattern registered before. -/
def ServeMux.Handle (mux : ServeMux) (pattern : String) (handler : Handler) :
    Except Error ServeMux :=
  if pattern = "" then .error ⟨"http: invalid pattern"⟩
  else if (mux.lookup pattern).isSome then
    .error ⟨"http: multiple registrations for " ++ pattern⟩
  else
    let e : muxEntry := ⟨handler, pattern⟩
    .ok
      { m := mux.m ++ [e]
        es := if pattern.data.getLast? = some '/' then appendSorted mux.es e else mux.es
        hosts := if pattern.data.head? = some '/' then mux.hosts else true }

/-- The method `(*ServeMux).HandleFunc`. -/
def ServeMux.HandleFunc (mux : ServeMux) (pattern : String) (handler : Handler) :
    Except Error ServeMux :=
  mux.Handle pattern handler

/-- An `http.Server`; unset fields are Go zero values. `Handler = none` is a nil handler. -/
structure Server where
  Addr : String := ""
  Handler : Option Handler := none
  TLSConfig : Option Config := none
  ReadTimeout : Nat := 0
  ReadHeaderTimeout : Nat := 0
  WriteTimeout : Nat := 0
  IdleTimeout : Nat := 0
  MaxHeaderBytes : Nat := 0

/-! ## net/http: writing a response -/

def ResponseWriter.setHeader (w : ResponseWriter) (key value : String) : ResponseWriter :=
  ⟨w.calls ++ [.setHeader key value]⟩

/-- The method `ResponseWriter.WriteHeader`. -/
def ResponseWriter.WriteHeader (w : ResponseWriter) (code : Nat) : ResponseWriter :=
  ⟨w.calls ++ [.writeHeader code]⟩

/-- The method `ResponseWriter.Write`. -/
def ResponseWriter.Write (w : ResponseWriter) (data : String) : ResponseWriter :=
  ⟨w.calls ++ [.write data]⟩

/-- Whether some call so far set the header `key`. -/
def ResponseWriter.hasHeader (w : ResponseWriter) (key : String) : Bool :=
  w.calls.any (fun c => match c with | .setHeader k _ => k == key | _ => false)

/-- The text `fmt.Sprintln` produces for string operands: separated by spaces, ended by a
newline. -/
def Sprintln (a : List String) : String := " ".intercalate a ++ "\n"

/-- The function `fmt.Fprintln` on a response writer: one `Write` of the formatted line. -/
def Fprintln (w : ResponseWriter) (a : List String) : ResponseWriter :=
  w.Write (Sprintln a)

/-- What the client receives for one request. -/
structure Response where
  status : Nat
  header : List (String × String)
  body : String
  deriving DecidableEq

/-- The function `bodyAllowedForStatus` of `net/http`. -/
def bodyAllowedForStatus (status : Nat) : Bool :=
  if 100 ≤ status ∧ status ≤ 199 then false
  else if status = 204 then false
  else if status = 304 then false
  else true

/-- Progress of a response: the status once the header is written, the header map, the
body sent so far. -/
structure Sent where
  wroteHeader : Option Nat := none
  header : List (String × String) := []
  body : String := ""

/-- Effect of one writer call on the response under construction, as `net/http` applies
it: the first `WriteHeader` fixes the status, a `Write` before any `WriteHeader` fixes it
to 200, header changes after that are lost, and the body of a HEAD response, or of a
status that allows none, is discarded. -/
def Sent.apply (method : String) (s : Sent) : WriterCall → Sent
  | .setHeader k v =>
    match s.wroteHeader with
    | some _ => s
    | none => { s with header := s.header.filter (fun kv => kv.1 != k) ++ [(k, v)] }
  | .writeHeader code =>
    match s.wroteHeader with
    | some _ => s
    | none => { s with wroteHeader := some code }
  | .write data =>
    let status := s.wroteHeader.getD 200
    let s := { s with wroteHeader := some status }
    if method = "HEAD" then s
    else if bodyAllowedForStatus status then { s with body := s.body ++ data }
    else s

/-- The response that results from the calls a handler made; a handler that never wrote a
header gets status 200. -/
def finishRequest (method : String) (w : ResponseWriter) : Response :=
  let s := w.calls.foldl (Sent.apply method) {}
  { status := s.wroteHeader.getD 200, header := s.header, body := s.body }

/-! ## net/http: routing (`ServeMux` as of Go 1.21, before patterns gained methods and
wildcards) -/

/-- The function `strings.HasPrefix`. -/
def HasPrefix (s pre : String) : Bool := pre.data.isPrefixOf s.data

/-- Pieces of a path between slashes. -/
def splitSlash : List Char → List (List Char)
  | [] => [[]]
  | c :: cs =>
    match splitSlash cs with
    | [] => [[]]
    | seg :: rest => if c = '/' then [] :: seg :: rest else (c :: seg) :: rest

/-- The element loop of `path.Clean`: `st` is the output so far, innermost element first.
Empty and `.` elements are dropped, `..` removes the element before it when there is one
to remove, is dropped at the root, and is kept at the front of an unrooted path. -/
def cleanElems (rooted : Bool) : List (List Char) → List (List Char) → List (List Char)
  | st, [] => st
  | st, e :: es =>
    if e = [] ∨ e = ['.'] then cleanElems rooted st es
    else if e = ['.', '.'] then
      match st with
      | top :: below =>
        if top = ['.', '.'] then cleanElems rooted (e :: st) es
        else cleanElems rooted below es
      | [] => if rooted then cleanElems rooted [] es else cleanElems rooted [e] es
    else cleanElems rooted (e :: st) es

/-- The function `path.Clean`. -/
def Clean (path : String) : String :=
  if path = "" then "."
  else
    let rooted : Bool := path.data.head? = some '/'
    let body := ['/'].intercalate (cleanElems rooted [] (splitSlash path.data)).reverse
    let out := if rooted then '/' :: body else body
    if out = [] then "." else ⟨out⟩

/-- The function `cleanPath` of `net/http`: the canonical form of a request path, with a
trailing slash preserved. -/
def cleanPath (p : String) : String :=
  if p = "" then "/"
  else
    let p := if p.data.head? = some '/' then p else "/" ++ p
    let np := Clean p
    if p.data.getLast? = some '/' ∧ np ≠ "/" then
      if p.length = np.length + 1 ∧ HasPrefix p np then p else np ++ "/"
    else np

/-- The function `http.Error`. -/
def Error.reply (w : ResponseWriter) (error : String) (code : Nat) : ResponseWriter :=
  let w := w.setHeader "Content-Type" "text/plain; charset=utf-8"
  let w := w.setHeader "X-Content-Type-Options" "nosniff"
  let w := w.WriteHeader code
  Fprintln w [error]

/-- The handler `http.NotFoundHandler()`. -/
def NotFoundHandler : Handler := fun w _ sh => (sh, Error.reply w "404 page not found" 404)

/-- The function `http.Redirect`. -/
def Redirect (L : Lib) (w : ResponseWriter) (r : Request) (url : String) (code : Nat) :
    ResponseWriter :=
  let hadCT := w.hasHeader "Content-Type"
  let w := w.setHeader "Location" (L.redirectLocation r url)
  let w :=
    if !hadCT ∧ (r.Method = "GET" ∨ r.Method = "HEAD") then
      w.setHeader "Content-Type" "text/html; charset=utf-8"
    else w
  let w := w.WriteHeader code
  if !hadCT ∧ r.Method = "GET" then Fprintln w [L.redirectNote url code] else w

/-- The handler `http.RedirectHandler(url, code)`. -/
def RedirectHandler (L : Lib) (url : String) (code : Nat) : Handler :=
  fun w r sh => (sh, Redirect L w r url code)

/-- The method `(*ServeMux).match`: an exact pattern first, else the longest registered
pattern ending in a slash that the path starts with. -/
def ServeMux.matchPattern (mux : ServeMux) (path : String) : Option (Handler × String) :=
  match mux.lookup path with
  | some e => some (e.h, e.pattern)
  | none => (mux.es.find? (fun e => HasPrefix path e.pattern)).map (fun e => (e.h, e.pattern))

/-- The method `(*ServeMux).handler`. -/
def ServeMux.handler (mux : ServeMux) (host path : String) : Handler × String :=
  let hit := if mux.hosts then mux.matchPattern (host ++ path) else none
  let hit := match hit with
    | some x => some x
    | none => mux.matchPattern path
  match hit with
  | some x => x
  | none => (NotFoundHandler, "")

/-- The method `(*ServeMux).shouldRedirectRLocked`. -/
def ServeMux.shouldRedirectRLocked (mux : ServeMux) (host path : String) : Bool :=
  let p := [path, host ++ path]
  if p.any (fun c => (mux.lookup c).isSome) then false
  else if path.length = 0 then false
  else if p.any (fun c => (mux.lookup (c ++ "/")).isSome) then
    path.data.getLast? != some '/'
  else false

/-- The method `(*ServeMux).Handler`: the handler for a request and the pattern it was
found under. A request other than CONNECT whose path is not in canonical form is answered
by a redirect to the canonical path. -/
def ServeMux.Handler (L : Lib) (mux : ServeMux) (r : Request) : MTLS.Handler × String :=
  if r.Method = "CONNECT" then
    if mux.shouldRedirectRLocked r.URLHost r.Path then
      (RedirectHandler L (L.urlString (r.Path ++ "/") r.RawQuery) 301, r.Path ++ "/")
    else mux.handler r.Host r.Path
  else
    let host := L.stripHostPort r.Host
    let path := cleanPath r.Path
    if mux.shouldRedirectRLocked host path then
      (RedirectHandler L (L.urlString (path ++ "/") r.RawQuery) 301, path ++ "/")
    else if path ≠ r.Path then
      (RedirectHandler L (L.urlString path r.RawQuery) 301, (mux.handler host path).2)
    else mux.handler host r.Path

/-- The method `(*ServeMux).ServeHTTP`. -/
def ServeMux.ServeHTTP (L : Lib) (mux : ServeMux) : MTLS.Handler := fun w r sh =>
  if r.RequestURI = "*" then
    let w :=
      if r.ProtoMajor > 1 ∨ (r.ProtoMajor = 1 ∧ r.ProtoMinor ≥ 1) then
        w.setHeader "Connection" "close"
      else w
    (sh, w.WriteHeader 400)
  else ((mux.Handler L r).1) w r sh

/-- The variable `http.DefaultServeMux`; `server.go` registers nothing on it. -/
def DefaultServeMux : ServeMux := NewServeMux

/-- The handler `globalOptionsHandler` of `net/http`. -/
def globalOptionsHandler : Handler := fun w _ sh => (sh, w.setHeader "Content-Length" "0")

/-- The method `serverHandler.ServeHTTP`: what a server runs for each request. -/
def serverHandler (L : Lib) (srv : Server) : Handler := fun w r sh =>
  let handler := srv.Handler.getD (DefaultServeMux.ServeHTTP L)
  let handler := if r.RequestURI = "*" ∧ r.Method = "OPTIONS" then globalOptionsHandler
    else handler
  handler w r sh

/-! ## crypto/x509 and crypto/tls: the server side of a handshake -/

/-- Modelled from the spec: chain building of `x509`, library code behind
`ListenAndServeTLS` that `server.go` does not contain. The spec asks for "a client
certificate chaining to the trust store": some root is an acceptable issuer of `c`, or
some intermediate is and itself chains to a root. `fuel` bounds the number of
intermediates on the way. -/
def buildChains (L : Lib) (roots intermediates : List Certificate) :
    (fuel : Nat) → (c : Certificate) → Bool
  | 0, c => roots.any (fun root => L.signedBy c root)
  | fuel + 1, c =>
    roots.any (fun root => L.signedBy c root) ||
      intermediates.any (fun i => L.signedBy c i && buildChains L roots intermediates fuel i)

/-- Modelled from the spec: the method `(*x509.Certificate).Verify`, library code behind
`ListenAndServeTLS` that `server.go` does not contain: the certificate is usable and
either is itself in the trust store or chains to it. A nil `roots` stands for the system
roots. -/
def Certificate.Verify (L : Lib) (c : Certificate) (roots : Option CertPool)
    (intermediates : List Certificate) : Bool :=
  let trusted := match roots with
    | some pool => pool.certs
    | none => L.systemRoots
  L.leafUsable c &&
    (trusted.contains c || buildChains L trusted intermediates intermediates.length c)

/-- Modelled from the spec: the method `(*tls.Config).supportedVersions`, library code
behind `ListenAndServeTLS` that `server.go` does not contain: the protocol versions a
configuration admits, best first. A zero `MinVersion` stands for TLS 1.2, a zero
`MaxVersion` for no upper bound. -/
def Config.supportedVersions (c : Config) : List Nat :=
  [VersionTLS13, VersionTLS12, VersionTLS11, VersionTLS10].filter (fun v =>
    !(decide (c.MinVersion = 0) && decide (v < VersionTLS12)) &&
    !(decide (c.MinVersion ≠ 0) && decide (v < c.MinVersion)) &&
    !(decide (c.MaxVersion ≠ 0) && decide (v > c.MaxVersion)))

/-- Modelled from the spec: the method `(*tls.Config).mutualVersion`, library code behind
`ListenAndServeTLS` that `server.go` does not contain: the best admitted version the peer
also offers. -/
def Config.mutualVersion (c : Config) (peerVersions : List Nat) : Option Nat :=
  c.supportedVersions.find? (fun v => peerVersions.contains v)

/-- The function `requiresClientCert` of `crypto/tls`. -/
def requiresClientCert : ClientAuthType → Bool
  | .RequireAnyClientCert => true
  | .RequireAndVerifyClientCert => true
  | _ => false

/-- A client's side of one handshake. -/
structure Client where
  hello : ClientHello
  /-- Everything the protocol demands besides version and certificate policy holds: a
  shared cipher suite, proof of possession of the certificate key, correct Finished
  messages. -/
  protocolSound : Bool
  deriving DecidableEq

/-- The result `tls.ConnectionState` of a completed handshake. -/
structure ConnectionState where
  Version : Nat
  PeerCertificates : List Certificate
  /-- Whether the peer certificate was verified against the client trust store. -/
  Verified : Bool
  deriving DecidableEq

/-- Modelled from the spec: the method `(*tls.Conn).processCertsFromClient`, library code
behind `ListenAndServeTLS` that `server.go` does not contain. Spec section 6: "mandatory
client certificate verified against the loaded CA; no client certificate or an untrusted
one gives handshake failure". A mode that requires a certificate rejects an empty chain; a
verifying mode checks a presented leaf against `ClientCAs`, the rest of the chain serving
as intermediates. -/
def processCertsFromClient (L : Lib) (c : Config) (certs : List Certificate) :
    Except Error Bool :=
  match certs with
  | [] =>
    if requiresClientCert c.ClientAuth then
      .error ⟨"tls: client didn't provide a certificate"⟩
    else .ok false
  | leaf :: rest =>
    if c.ClientAuth.toNat ≥ ClientAuthType.VerifyClientCertIfGiven.toNat then
      if leaf.Verify L c.ClientCAs rest then .ok true
      else .error ⟨"tls: failed to verify certificate"⟩
    else .ok false

/-- Modelled from the spec: the server handshake of `crypto/tls`, library code behind
`ListenAndServeTLS` that `server.go` does not contain. Spec section 6: "minimum version
TLS 1.2; mandatory client certificate verified against the loaded CA; no client
certificate or an untrusted one gives handshake failure, connection refused before any
HTTP-level response". The version is negotiated first; a certificate is requested, and the
client's answer processed, in every mode but `NoClientCert`. -/
def serverHandshake (L : Lib) (c : Config) (client : Client) :
    Except Error ConnectionState :=
  match c.mutualVersion client.hello.supportedVersions with
  | none => .error ⟨"tls: client offered only unsupported versions"⟩
  | some vers =>
    if !client.protocolSound then .error ⟨"tls: handshake failure"⟩
    else if c.ClientAuth.toNat ≥ ClientAuthType.RequestClientCert.toNat then
      match processCertsFromClient L c client.hello.certificates with
      | .error e => .error e
      | .ok verified => .ok ⟨vers, client.hello.certificates, verified⟩
    else .ok ⟨vers, [], false⟩

/-! ## net/http: serving one connection -/

/-- An incoming connection: the client's handshake and the well-formed requests the server
reads from it, and hands to its handler, once the handshake is done. -/
structure Connection where
  client : Client
  requests : List Request
  deriving DecidableEq

/-- What happens on a connection. -/
inductive ConnEvent where
  | handshakeFailed (err : Error)
  | handshakeDone (state : ConnectionState)
  /-- The server's handler ran for `r`, made `calls` on its writer, and `resp` went out. -/
  | served (r : Request) (calls : List WriterCall) (resp : Response)
  deriving DecidableEq

/-- Modelled from the spec: the request loop of a connection in `net/http`, library code
behind `ListenAndServeTLS` that `server.go` does not contain: each request in turn goes
to the server's handler with a fresh writer, on the shared objects as the requests before
it left them. -/
def serveRequests (L : Lib) (srv : Server) : List Request → Shared → Shared × List ConnEvent
  | [], sh => (sh, [])
  | r :: rest, sh =>
    let done := serverHandler L srv {} r sh
    let more := serveRequests L srv rest done.1
    (more.1, .served r done.2.calls (finishRequest r.Method done.2) :: more.2)

/-- Modelled from the spec: the serving of one connection by `net/http`, library code
behind `ListenAndServeTLS` that `server.go` does not contain: the handshake comes first
and a failed handshake ends the connection ("connection refused before any HTTP-level
response"); after a successful one the requests are served. A nil `TLSConfig` stands for
the zero configuration. The result is the shared objects as the connection leaves them,
and what happened on it. -/
def serveConn (L : Lib) (srv : Server) (conn : Connection) (sh : Shared) :
    Shared × List ConnEvent :=
  match serverHandshake L (srv.TLSConfig.getD {}) conn.client with
  | .error e => (sh, [.handshakeFailed e])
  | .ok st =>
    let served := serveRequests L srv conn.requests sh
    (served.1, .handshakeDone st :: served.2)

/-- The function `http2ConfigureServer` of `net/http`, which `ServeTLS` runs before it
serves, as far as it touches the modelled fields of the server: it writes into the TLS
configuration of the server, a fresh one if there is none, setting
`PreferServerCipherSuites` and adding the ALPN names `h2` and `http/1.1` to `NextProtos`
where they are missing. When a list of cipher suites is given for a version below TLS 1.3
that has neither of the two suites HTTP/2 requires, it writes nothing and reports an
error. -/
def http2ConfigureServer (s : Server) : Except Error Server :=
  let c : Config := s.TLSConfig.getD {}
  if s.TLSConfig.isSome ∧ c.CipherSuites ≠ [] ∧ c.MinVersion < VersionTLS13 ∧
      ¬ (0xc02f ∈ c.CipherSuites ∨ 0xc02b ∈ c.CipherSuites) then
    .error ⟨"http2: TLSConfig.CipherSuites is missing an HTTP/2-required cipher suite"⟩
  else
    let protos := if "h2" ∈ c.NextProtos then c.NextProtos else c.NextProtos ++ ["h2"]
    let protos := if "http/1.1" ∈ protos then protos else protos ++ ["http/1.1"]
    .ok { s with
      TLSConfig := some { c with PreferServerCipherSuites := true, NextProtos := protos } }

/-- The server as the start of `ServeTLS` leaves it by default: configured for HTTP/2, or
as it was when that reports an error. -/
def setupHTTP2_ServeTLS (s : Server) : Server :=
  match http2ConfigureServer s with
  | .ok configured => configured
  | .error _ => s

/-! ## `main` -/

/-- The function literal of lines 22 to 24, registered for the pattern `/`. -/
def main_func1 : Handler := fun w _r sh => (sh, Fprintln w ["Hello, mTLS world!"])

/-- The composite literal of lines 26 to 35, for the values of `mux` and `caCertPool` at
that point. -/
def serverLiteral (L : Lib) (mux : ServeMux) (caCertPool : CertPool) : Server :=
  { Addr := ":8443"
    Handler := some (mux.ServeHTTP L)
    TLSConfig := some
      { MinVersion := VersionTLS12
        -- Require client certs signed by our CA
        ClientAuth := .RequireAndVerifyClientCert
        ClientCAs := some caCertPool } }

/-- How a call of `ListenAndServeTLS` ends, seen from `main`. -/
inductive ListenOutcome where
  /-- The call does not return: the server keeps serving. -/
  | blocks
  /-- The call returns `err`, nil being `none`, from `ServeTLS`, that is after the
  listener was opened. -/
  | returns (err : Option Error)
  /-- The call returns `err` at once, the listener could not be opened: `ServeTLS` is
  not reached. -/
  | fails (err : Error)
  deriving DecidableEq

/-- The surroundings of the process: its arguments and environment, the file system, and
how a call to `ListenAndServeTLS` ends. A failed read yields no data that `main` uses. -/
structure World where
  args : List String
  environ : List (String × String)
  /-- The function `ioutil.ReadFile`. -/
  ReadFile : (filename : String) → Except Error Bytes
  /-- The method `(*http.Server).ListenAndServeTLS`. -/
  ListenAndServeTLS : Server → (certFile keyFile : String) → ListenOutcome

/-- An operation of `main` on its surroundings. -/
inductive Effect where
  | readFile (filename : String)
  | stdout (text : String)
  | listenAndServeTLS (srv : Server) (certFile keyFile : String)

/-- Program points of `main`, named by the source line of the statement about to run,
each with the local variables assigned so far. -/
inductive Control where
  | l13
  | l14 (caCert : Bytes) (err : Option Error)
  | l18 (caCert : Bytes)
  | l19 (caCert : Bytes) (caCertPool : CertPool)
  | l21 (caCert : Bytes) (caCertPool : CertPool)
  | l22 (caCert : Bytes) (caCertPool : CertPool) (mux : ServeMux)
  | l26 (caCert : Bytes) (caCertPool : CertPool) (mux : ServeMux)
  | l37 (caCert : Bytes) (caCertPool : CertPool) (mux : ServeMux) (srv : Server)
  | l38 (caCert : Bytes) (caCertPool : CertPool) (mux : ServeMux) (srv : Server)
  /-- Inside the call of line 38, which has not returned. -/
  | inListenAndServeTLS (caCert : Bytes) (caCertPool : CertPool) (mux : ServeMux)
      (srv : Server)
  | l39 (caCert : Bytes) (caCertPool : CertPool) (mux : ServeMux) (srv : Server)
      (err : Option Error)
  | panicked (err : Error)
  | returned

/-- A state of the process: where `main` is, what it has done to its surroundings, and
the connections served so far, each with what happened on it. -/
structure State where
  ctl : Control
  effects : List Effect
  served : List (Connection × List ConnEvent)

/-- The state in which `main` starts. -/
def init : State := ⟨.l13, [], []⟩

/-- One statement of `main`. -/
def step (L : Lib) (W : World) (s : State) : State :=
  match s.ctl with
  | .l13 =>
    -- caCert, err := ioutil.ReadFile("ca.crt")
    match W.ReadFile "ca.crt" with
    | .ok data =>
      { s with ctl := .l14 data none, effects := s.effects ++ [.readFile "ca.crt"] }
    | .error e =>
      { s with ctl := .l14 [] (some e), effects := s.effects ++ [.readFile "ca.crt"] }
  | .l14 caCert err =>
    -- if err != nil { panic(err) }
    match err with
    | some e => { s with ctl := .panicked e }
    | none => { s with ctl := .l18 caCert }
  | .l18 caCert =>
    -- caCertPool := x509.NewCertPool()
    { s with ctl := .l19 caCert NewCertPool }
  | .l19 caCert caCertPool =>
    -- caCertPool.AppendCertsFromPEM(caCert)
    { s with ctl := .l21 caCert (caCertPool.AppendCertsFromPEM L caCert).1 }
  | .l21 caCert caCertPool =>
    -- mux := http.NewServeMux()
    { s with ctl := .l22 caCert caCertPool NewServeMux }
  | .l22 caCert caCertPool mux =>
    -- mux.HandleFunc("/", func(w http.ResponseWriter, r *http.Request) { ... })
    match mux.HandleFunc "/" main_func1 with
    | .ok mux => { s with ctl := .l26 caCert caCertPool mux }
    | .error e => { s with ctl := .panicked e }
  | .l26 caCert caCertPool mux =>
    -- srv := &http.Server{ ... }
    { s with ctl := .l37 caCert caCertPool mux (serverLiteral L mux caCertPool) }
  | .l37 caCert caCertPool mux srv =>
    -- fmt.Println("Starting mTLS server on https://backup.local:8443")
    { s with
      ctl := .l38 caCert caCertPool mux srv
      effects := s.effects ++
        [.stdout (Sprintln ["Starting mTLS server on https://backup.local:8443"])] }
  | .l38 caCert caCertPool mux srv =>
    -- err = srv.ListenAndServeTLS("server.crt", "server.key")
    -- once its listener is open the call writes to the server: see `setupHTTP2_ServeTLS`
    match W.ListenAndServeTLS srv "server.crt" "server.key" with
    | .blocks =>
      { s with
        ctl := .inListenAndServeTLS caCert caCertPool mux (setupHTTP2_ServeTLS srv)
        effects := s.effects ++ [.listenAndServeTLS srv "server.crt" "server.key"] }
    | .returns err =>
      { s with
        ctl := .l39 caCert caCertPool mux (setupHTTP2_ServeTLS srv) err
        effects := s.effects ++ [.listenAndServeTLS srv "server.crt" "server.key"] }
    | .fails e =>
      { s with
        ctl := .l39 caCert caCertPool mux srv (some e)
        effects := s.effects ++ [.listenAndServeTLS srv "server.crt" "server.key"] }
  | .inListenAndServeTLS _ _ _ _ => s
  | .l39 _ _ _ _ err =>
    -- if err != nil { panic(err) }
    match err with
    | some e => { s with ctl := .panicked e }
    | none => { s with ctl := .returned }
  | .panicked _ => s
  | .returned => s

/-- The state after `n` statements. -/
def run (L : Lib) (W : World) : Nat → State → State
  | 0, s => s
  | n + 1, s => run L W n (step L W s)

/-- What moves the process: `main` runs its next statement, or a connection arrives. -/
inductive Input where
  | statement
  | incoming (conn : Connection)

/-- One move of the process. A connection is served only while `main` is inside
`ListenAndServeTLS`, by the server passed to that call; what its handlers did to the
shared objects stays. The copy of the configuration that `net/http` hands to its listener
is not kept apart from the configuration of the server. -/
def next (L : Lib) (W : World) (s : State) : Input → State
  | .statement => step L W s
  | .incoming conn =>
    match s.ctl with
    | .inListenAndServeTLS caCert caCertPool mux srv =>
      let result := serveConn L srv conn ⟨caCertPool, srv.TLSConfig⟩
      { s with
        ctl := .inListenAndServeTLS caCert result.1.caCertPool mux
          { srv with TLSConfig := result.1.TLSConfig }
        served := s.served ++ [(conn, result.2)] }
    | _ => s

/-- The state the process reaches from its start under a sequence of moves. -/
def runInputs (L : Lib) (W : World) (inputs : List Input) : State :=
  inputs.foldl (next L W) init

/-- The certificate pool allocated at line 18, once it exists. -/
def Control.caCertPool : Control → Option CertPool
  | .l19 _ p | .l21 _ p | .l22 _ p _ | .l26 _ p _ | .l37 _ p _ _ | .l38 _ p _ _
  | .inListenAndServeTLS _ p _ _ | .l39 _ p _ _ _ => some p
  | _ => none

/-- The multiplexer allocated at line 21, once it exists. -/
def Control.mux : Control → Option ServeMux
  | .l22 _ _ m | .l26 _ _ m | .l37 _ _ m _ | .l38 _ _ m _
  | .inListenAndServeTLS _ _ m _ | .l39 _ _ m _ _ => some m
  | _ => none

/-- The server built at line 26, once it exists. -/
def Control.srv : Control → Option Server
  | .l37 _ _ _ v | .l38 _ _ _ v | .inListenAndServeTLS _ _ _ v | .l39 _ _ _ v _ => some v
  | _ => none

/-- Whether the process has ended. -/
def Control.ended : Control → Bool
  | .panicked _ => true
  | .returned => true
  | _ => false

/-! ## Values and predicates used in the statements -/

/-- The multiplexer `main` holds after line 22: the single pattern `/`. -/
def rootMux : ServeMux := ⟨[⟨main_func1, "/"⟩], [⟨main_func1, "/"⟩], false⟩

/-- The pool `main` holds after line 19 when `ca.crt` contains `b`. -/
def poolOf (L : Lib) (b : Bytes) : CertPool := (NewCertPool.AppendCertsFromPEM L b).1

/-- The banner of line 37 as it reaches standard output. -/
def banner : String := "Starting mTLS server on https://backup.local:8443\n"

/-- The effects of a run that got as far as calling `ListenAndServeTLS`. -/
def effectsOf (srv : Server) : List Effect :=
  [.readFile "ca.crt", .stdout banner, .listenAndServeTLS srv "server.crt" "server.key"]

/-- Two TLS configurations that differ at most in the two fields `net/http` writes when it
sets a server up for HTTP/2, `NextProtos` and `PreferServerCipherSuites`. -/
def Config.sameButALPN (c c' : Config) : Prop :=
  c' = { c with
    NextProtos := c'.NextProtos, PreferServerCipherSuites := c'.PreferServerCipherSuites }

/-- What the server of `main` does to a writer for a request, whatever the shared objects
are. -/
def rootReply (L : Lib) (w : ResponseWriter) (r : Request) : ResponseWriter :=
  (serverHandler L { Handler := some (rootMux.ServeHTTP L) } w r ⟨NewCertPool, none⟩).2

/-- What happens on a connection to the server of `main` under the TLS configuration
`c`. -/
def eventsUnder (L : Lib) (c : Config) (conn : Connection) : List ConnEvent :=
  match serverHandshake L c conn.client with
  | .error e => [.handshakeFailed e]
  | .ok st =>
    .handshakeDone st ::
      conn.requests.map (fun r =>
        .served r (rootReply L {} r).calls (finishRequest r.Method (rootReply L {} r)))

/-- The TLS configuration `main` builds when `ca.crt` contains `b`. -/
def configOf (L : Lib) (b : Bytes) : Config :=
  (serverLiteral L rootMux (poolOf L b)).TLSConfig.getD {}

/-- The facts about the local variables at each program point, and about the connections
served, when `ca.crt` contains `b`. -/
def Inv (L : Lib) (b : Bytes) (s : State) : Prop :=
  (match s.ctl with
    | .l13 => s.served = []
    | .l14 c err => err = none ∧ c = b ∧ s.served = []
    | .l18 c => c = b ∧ s.served = []
    | .l19 c p => c = b ∧ p = NewCertPool ∧ s.served = []
    | .l21 c p => c = b ∧ p = poolOf L b ∧ s.served = []
    | .l22 c p m => c = b ∧ p = poolOf L b ∧ m = NewServeMux ∧ s.served = []
    | .l26 c p m => c = b ∧ p = poolOf L b ∧ m = rootMux ∧ s.served = []
    | .l37 c p m v =>
      c = b ∧ p = poolOf L b ∧ m = rootMux ∧ v = serverLiteral L rootMux (poolOf L b) ∧
        s.served = []
    | .l38 c p m v =>
      c = b ∧ p = poolOf L b ∧ m = rootMux ∧ v = serverLiteral L rootMux (poolOf L b) ∧
        s.served = []
    | .inListenAndServeTLS c p m v =>
      c = b ∧ p = poolOf L b ∧ m = rootMux ∧
        v = setupHTTP2_ServeTLS (serverLiteral L rootMux (poolOf L b))
    | .l39 c p m v _ =>
      c = b ∧ p = poolOf L b ∧ m = rootMux ∧
        (v = serverLiteral L rootMux (poolOf L b) ∨
          v = setupHTTP2_ServeTLS (serverLiteral L rootMux (poolOf L b)))
    | .panicked _ => True
    | .returned => True) ∧
  ∀ p ∈ s.served, p.2 = eventsUnder L (configOf L b) p.1

/-! ## Sample surroundings, for instances of the theorems -/

/-- A sample library: the PEM text `[1]` holds the one certificate `[1]`, which is an
acceptable issuer of the certificate `[2]` and of nothing else. -/
def sampleLib : Lib where
  pemCertificates := fun b => if b = [1] then [⟨[1]⟩] else []
  signedBy := fun child parent => child.raw = [2] && parent.raw = [1]
  leafUsable := fun _ => true
  systemRoots := []
  stripHostPort := fun h => h
  urlString := fun path rawQuery => if rawQuery = "" then path else path ++ "?" ++ rawQuery
  redirectLocation := fun _ url => url
  redirectNote := fun url _ => "<a href=\"" ++ url ++ "\">Moved Permanently</a>.\n"

/-- The error of reading a file that is not there. -/
def noSuchFile (f : String) : Error := ⟨"open " ++ f ++ ": no such file or directory"⟩

/-- A sample world: `ca.crt` holds the PEM text `[1]`, and the server runs for good. -/
def sampleWorld : World where
  args := []
  environ := []
  ReadFile := fun f => if f = "ca.crt" then .ok [1] else .error (noSuchFile f)
  ListenAndServeTLS := fun _ _ _ => .blocks

/-- A sample world whose `ca.crt` holds no certificate at all. -/
def sampleWorldEmptyCA : World where
  args := []
  environ := []
  ReadFile := fun f => if f = "ca.crt" then .ok [] else .error (noSuchFile f)
  ListenAndServeTLS := fun _ _ _ => .blocks

/-- A sample world without `ca.crt`. -/
def sampleWorldNoCA : World where
  args := ["-port", "9000"]
  environ := [("PORT", "9000")]
  ReadFile := fun f => .error (noSuchFile f)
  ListenAndServeTLS := fun _ _ _ => .blocks

/-- A sample world in which the port is taken. -/
def sampleWorldPortTaken : World where
  args := []
  environ := []
  ReadFile := fun f => if f = "ca.crt" then .ok [1] else .error (noSuchFile f)
  ListenAndServeTLS := fun _ _ _ =>
    .fails ⟨"listen tcp :8443: bind: address already in use"⟩

/-- A sample world in which `server.key` is missing: the listener opens, and `ServeTLS`
returns the error of loading the key pair. -/
def sampleWorldNoKey : World where
  args := []
  environ := []
  ReadFile := fun f => if f = "ca.crt" then .ok [1] else .error (noSuchFile f)
  ListenAndServeTLS := fun _ _ keyFile => .returns (some (noSuchFile keyFile))

/-- A sample request over HTTP/1.1. -/
def sampleRequest (method target : String) : Request :=
  { Method := method, RequestURI := target, Host := "backup.local:8443", URLHost := ""
    Path := target, RawQuery := "", ProtoMajor := 1, ProtoMinor := 1, Header := [], Body := [] }

/-- A sample sound client offering the given versions and certificate chain. -/
def sampleClient (versions : List Nat) (chain : List Certificate) : Client :=
  ⟨⟨versions, "backup.local", chain⟩, true⟩

/-- The moves that take `main` into `ListenAndServeTLS` and then bring in the given
connections. -/
def sampleInputs (conns : List Connection) : List Input :=
  List.replicate 9 Input.statement ++ conns.map Input.incoming

/-- A connection of a client whose certificate `[2]` was issued by the CA `[1]`. -/
def sampleConnTrusted : Connection :=
  ⟨sampleClient [VersionTLS12, VersionTLS13] [⟨[2]⟩],
    [sampleRequest "GET" "/", sampleRequest "GET" "//x", sampleRequest "HEAD" "/",
      sampleRequest "POST" "/a/b/"]⟩

/-- A connection of a client that sends no certificate. -/
def sampleConnNoCert : Connection :=
  ⟨sampleClient [VersionTLS12, VersionTLS13] [], [sampleRequest "GET" "/"]⟩

/-- A connection of a client with a trusted certificate that offers TLS 1.1 at most. -/
def sampleConnOld : Connection :=
  ⟨sampleClient [VersionTLS10, VersionTLS11] [⟨[2]⟩], [sampleRequest "GET" "/"]⟩

/-! ## Lemmas: the values `main` builds -/

theorem handleFunc_root : NewServeMux.HandleFunc "/" main_func1 = .ok rootMux := by
  rfl

theorem sprintln_hello : Sprintln ["Hello, mTLS world!"] = "Hello, mTLS world!\n" := by
  decide

theorem main_func1_calls (w : ResponseWriter) (r : Request) (sh : Shared) :
    main_func1 w r sh = (sh, ⟨w.calls ++ [.write "Hello, mTLS world!\n"]⟩) := by
  simp [main_func1, Fprintln, ResponseWriter.Write, sprintln_hello]

theorem sprintln_banner :
    Sprintln ["Starting mTLS server on https://backup.local:8443"] = banner := by
  decide

theorem run_add (L : Lib) (W : World) (m n : Nat) (s : State) :
    run L W (m + n) s = run L W n (run L W m s) := by
  induction m generalizing s with
  | zero => simp [run]
  | succ m ih => rw [Nat.succ_add]; simp [run, ih]

theorem run_to_listen (L : Lib) (W : World) (b : Bytes) (h : W.ReadFile "ca.crt" = .ok b) :
    run L W 8 init =
      ⟨.l38 b (poolOf L b) rootMux (serverLiteral L rootMux (poolOf L b)),
        [.readFile "ca.crt", .stdout banner], []⟩ := by
  simp [run, step, init, h, handleFunc_root, sprintln_banner, poolOf]

theorem run_read_error (L : Lib) (W : World) (e : Error)
    (h : W.ReadFile "ca.crt" = .error e) (n : Nat) :
    run L W (n + 2) init = ⟨.panicked e, [.readFile "ca.crt"], []⟩ := by
  have h2 : run L W 2 init = ⟨.panicked e, [.readFile "ca.crt"], []⟩ := by
    simp [run, step, init, h]
  have hfix : ∀ k, run L W k ⟨.panicked e, [.readFile "ca.crt"], []⟩ =
      ⟨.panicked e, [.readFile "ca.crt"], []⟩ := by
    intro k
    induction k with
    | zero => rfl
    | succ k ih => simpa [run, step] using ih
  rw [Nat.add_comm, run_add, h2, hfix]

/-! ## Lemmas: routing on the multiplexer of `main` -/

theorem lookup_root (c : String) :
    (rootMux.lookup c).isSome = decide (c = "/") := by
  simp [ServeMux.lookup, rootMux, List.find?]
  by_cases hc : c = "/"
  · simp [hc]
  · have : ("/" == c) = false := by simp [Ne.symm hc]
    simp [this, hc]

theorem append_slash_ne (c : String) (hc : c ≠ "") : c ++ "/" ≠ "/" := by
  intro h
  have := congrArg String.data h
  simp at this
  apply hc
  exact String.ext this

theorem shouldRedirect_root (host path : String) :
    rootMux.shouldRedirectRLocked host path = false := by
  unfold ServeMux.shouldRedirectRLocked
  by_cases hp : path = ""
  · subst hp
    simp [String.length]
  · have h1 : path ++ "/" ≠ "/" := append_slash_ne path hp
    have h2 : host ++ path ++ "/" ≠ "/" := by
      apply append_slash_ne
      intro h
      apply hp
      have := congrArg String.data h
      simp at this
      exact String.ext this.2
    simp [lookup_root, h1, h2]

theorem clean_rooted_head (p : String) (hp : p.data.head? = some '/') :
    ∃ body, Clean p = ⟨'/' :: body⟩ := by
  have hne : p ≠ "" := by
    rintro rfl
    simp at hp
  refine ⟨['/'].intercalate (cleanElems true [] (splitSlash p.data)).reverse, ?_⟩
  simp [Clean, hne, hp]

theorem cleanPath_head (p : String) : (cleanPath p).data.head? = some '/' := by
  unfold cleanPath
  by_cases hp : p = ""
  · simp [hp]
  · simp only [hp, if_false]
    have hq : (if p.data.head? = some '/' then p else "/" ++ p).data.head? = some '/' := by
      split
      · assumption
      · simp
    obtain ⟨body, hb⟩ := clean_rooted_head _ hq
    generalize (if p.data.head? = some '/' then p else "/" ++ p) = q at *
    simp only [hb]
    split
    · split
      · exact hq
      · simp
    · simp

theorem matchPattern_root (path : String) (hp : path.data.head? = some '/') :
    rootMux.matchPattern path = some (main_func1, "/") := by
  unfold ServeMux.matchPattern
  cases hl : rootMux.lookup path with
  | some e =>
    simp only [ServeMux.lookup, rootMux, List.find?] at hl
    split at hl
    · cases hl; rfl
    · cases hl
  | none =>
    have : HasPrefix path "/" = true := by
      cases path with
      | mk d =>
        cases d with
        | nil => simp at hp
        | cons c cs =>
          simp at hp
          subst hp
          simp [HasPrefix, List.isPrefixOf]
    simp [rootMux, List.find?, this]

theorem handler_root (host path : String) (hp : path.data.head? = some '/') :
    rootMux.handler host path = (main_func1, "/") := by
  have hh : rootMux.hosts = false := rfl
  simp [ServeMux.handler, hh, matchPattern_root path hp]

theorem Handler_root (L : Lib) (r : Request) (hc : cleanPath r.Path = r.Path) :
    rootMux.Handler L r = (main_func1, "/") := by
  have hp : r.Path.data.head? = some '/' := by
    rw [← hc]; exact cleanPath_head _
  unfold ServeMux.Handler
  simp [shouldRedirect_root, hc, handler_root _ _ hp]

theorem serverHandler_root (L : Lib) (srv : Server) (w : ResponseWriter) (r : Request)
    (sh : Shared) (hsrv : srv.Handler = some (rootMux.ServeHTTP L))
    (hstar : r.RequestURI ≠ "*") (hc : cleanPath r.Path = r.Path) :
    serverHandler L srv w r sh = (sh, ⟨w.calls ++ [.write "Hello, mTLS world!\n"]⟩) := by
  simp [serverHandler, hsrv, hstar, ServeMux.ServeHTTP, Handler_root L r hc, main_func1_calls]

theorem finish_hello (method : String) :
    finishRequest method ⟨[.write "Hello, mTLS world!\n"]⟩ =
      ⟨200, [], if method = "HEAD" then "" else "Hello, mTLS world!\n"⟩ := by
  by_cases hm : method = "HEAD"
  · simp [finishRequest, Sent.apply, hm]
  · simp [finishRequest, Sent.apply, hm, bodyAllowedForStatus]


/-! ## Lemmas: no handler of the server of `main` writes to the shared objects -/

theorem handler_root_cases (host path : String) :
    (rootMux.handler host path).1 = main_func1 ∨
      (rootMux.handler host path).1 = NotFoundHandler := by
  have hh : rootMux.hosts = false := rfl
  have hm : ∀ p, rootMux.matchPattern p = some (main_func1, "/") ∨
      rootMux.matchPattern p = none := by
    intro p
    unfold ServeMux.matchPattern
    cases hl : rootMux.lookup p with
    | some e =>
      simp only [ServeMux.lookup, rootMux, List.find?] at hl
      split at hl
      · cases hl; exact Or.inl rfl
      · cases hl
    | none =>
      simp only [rootMux, List.find?]
      split
      · exact Or.inl rfl
      · exact Or.inr rfl
  rcases hm path with h | h
  · left; simp [ServeMux.handler, hh, h]
  · right; simp [ServeMux.handler, hh, h]

/-- Whatever handler the multiplexer of `main` picks, it returns the shared objects as it
got them, and what it does to the writer does not depend on them. -/
theorem Handler_root_pure (L : Lib) (r : Request) (w : ResponseWriter) (q : Request)
    (sh sh0 : Shared) :
    (rootMux.Handler L r).1 w q sh = (sh, ((rootMux.Handler L r).1 w q sh0).2) := by
  have hcase : ∀ host path, (rootMux.handler host path).1 w q sh =
      (sh, ((rootMux.handler host path).1 w q sh0).2) := by
    intro host path
    rcases handler_root_cases host path with h | h
    · rw [h, main_func1_calls, main_func1_calls]
    · rw [h]; rfl
  unfold ServeMux.Handler
  split
  · split
    · rfl
    · exact hcase _ _
  · simp only
    split
    · rfl
    · split
      · rfl
      · exact hcase _ _

theorem serverHandler_rootMux (L : Lib) (srv : Server) (w : ResponseWriter) (r : Request)
    (sh : Shared) (hsrv : srv.Handler = some (rootMux.ServeHTTP L)) :
    serverHandler L srv w r sh = (sh, rootReply L w r) := by
  unfold rootReply serverHandler
  simp only [hsrv, Option.getD_some]
  split
  · rfl
  · unfold ServeMux.ServeHTTP
    split
    · rfl
    · exact Handler_root_pure L r w r sh _

theorem rootReply_canonical (L : Lib) (w : ResponseWriter) (r : Request)
    (hstar : r.RequestURI ≠ "*") (hc : cleanPath r.Path = r.Path) :
    rootReply L w r = ⟨w.calls ++ [.write "Hello, mTLS world!\n"]⟩ := by
  unfold rootReply
  rw [serverHandler_root L _ w r _ rfl hstar hc]

theorem serveRequests_root (L : Lib) (srv : Server)
    (hsrv : srv.Handler = some (rootMux.ServeHTTP L)) (rs : List Request) (sh : Shared) :
    serveRequests L srv rs sh =
      (sh, rs.map (fun r =>
        ConnEvent.served r (rootReply L {} r).calls
          (finishRequest r.Method (rootReply L {} r)))) := by
  induction rs with
  | nil => rfl
  | cons r rest ih =>
    simp only [serveRequests, List.map_cons]
    rw [serverHandler_rootMux L srv {} r sh hsrv, ih]

theorem serveConn_root (L : Lib) (srv : Server)
    (hsrv : srv.Handler = some (rootMux.ServeHTTP L)) (conn : Connection) (sh : Shared) :
    serveConn L srv conn sh = (sh, eventsUnder L (srv.TLSConfig.getD {}) conn) := by
  unfold serveConn eventsUnder
  cases serverHandshake L (srv.TLSConfig.getD {}) conn.client with
  | error e => rfl
  | ok st => simp only [serveRequests_root L srv hsrv]

/-! ## Lemmas: the handshake under the configuration of `main` -/

/-- The TLS configuration inside `serverLiteral`. -/
theorem serverLiteral_config (L : Lib) (mux : ServeMux) (pool : CertPool) :
    (serverLiteral L mux pool).TLSConfig.getD {} =
      { MinVersion := VersionTLS12
        ClientAuth := .RequireAndVerifyClientCert
        ClientCAs := some pool } := rfl

/-- The server of `main` once `ServeTLS` has set it up. -/
theorem setup_serverLiteral (L : Lib) (mux : ServeMux) (pool : CertPool) :
    setupHTTP2_ServeTLS (serverLiteral L mux pool) =
      { serverLiteral L mux pool with
        TLSConfig := some
          { MinVersion := VersionTLS12
            ClientAuth := .RequireAndVerifyClientCert
            ClientCAs := some pool
            PreferServerCipherSuites := true
            NextProtos := ["h2", "http/1.1"] } } := by
  simp [setupHTTP2_ServeTLS, http2ConfigureServer, serverLiteral]

theorem setup_handler (L : Lib) (mux : ServeMux) (pool : CertPool) :
    (setupHTTP2_ServeTLS (serverLiteral L mux pool)).Handler = some (mux.ServeHTTP L) := by
  rw [setup_serverLiteral]; rfl

theorem mutualVersion_old (c : Config) (hmin : c.MinVersion = VersionTLS12)
    (vs : List Nat) (hold : ∀ v ∈ vs, v < VersionTLS12) :
    c.mutualVersion vs = none := by
  unfold Config.mutualVersion
  rw [List.find?_eq_none]
  intro v hv
  simp only [Config.supportedVersions, List.mem_filter, hmin] at hv
  obtain ⟨hmem, hcond⟩ := hv
  have hge : VersionTLS12 ≤ v := by
    simp [VersionTLS13, VersionTLS12, VersionTLS11, VersionTLS10] at hmem hcond ⊢
    rcases hmem with rfl | rfl | rfl | rfl <;> simp_all
  intro hc
  have := hold v (by simpa using hc)
  omega

theorem buildChains_no_roots (L : Lib) (inter : List Certificate) (fuel : Nat)
    (c : Certificate) : buildChains L [] inter fuel c = false := by
  induction fuel generalizing c with
  | zero => simp [buildChains]
  | succ n ih => simp [buildChains, ih]

theorem verify_empty_pool (L : Lib) (c : Certificate) (rest : List Certificate) :
    c.Verify L (some NewCertPool) rest = false := by
  simp [Certificate.Verify, NewCertPool, buildChains_no_roots]

/-- Under the configuration of `main`, a handshake that succeeds has a sound client that
presented a chain whose leaf verifies against the pool. -/
theorem handshake_ok (L : Lib) (mux : ServeMux) (pool : CertPool) (client : Client)
    (st : ConnectionState)
    (h : serverHandshake L ((serverLiteral L mux pool).TLSConfig.getD {}) client = .ok st) :
    ∃ leaf rest, client.hello.certificates = leaf :: rest ∧
      leaf.Verify L (some pool) rest = true ∧
      ∃ v ∈ client.hello.supportedVersions, VersionTLS12 ≤ v := by
  rw [serverLiteral_config] at h
  unfold serverHandshake at h
  split at h
  · cases h
  · rename_i vers hv
    have hver : ∃ v ∈ client.hello.supportedVersions, VersionTLS12 ≤ v := by
      by_contra hno
      push_neg at hno
      rw [mutualVersion_old _ rfl _ hno] at hv
      cases hv
    split at h
    · cases h
    · simp only [ClientAuthType.toNat, ge_iff_le, Nat.one_le_ofNat, if_true] at h
      unfold processCertsFromClient at h
      cases hc : client.hello.certificates with
      | nil => simp [hc, requiresClientCert] at h
      | cons leaf rest =>
        refine ⟨leaf, rest, rfl, ?_, hver⟩
        simp only [hc, ClientAuthType.toNat] at h
        by_contra hverify
        simp [hverify] at h

/-- The two fields `ServeTLS` writes play no part in the handshake. -/
theorem handshake_setup (L : Lib) (mux : ServeMux) (pool : CertPool) (client : Client) :
    serverHandshake L ((setupHTTP2_ServeTLS (serverLiteral L mux pool)).TLSConfig.getD {})
        client =
      serverHandshake L ((serverLiteral L mux pool).TLSConfig.getD {}) client := by
  rw [setup_serverLiteral]
  rfl

theorem eventsUnder_setup (L : Lib) (b : Bytes) (conn : Connection) :
    eventsUnder L
        ((setupHTTP2_ServeTLS (serverLiteral L rootMux (poolOf L b))).TLSConfig.getD {})
        conn =
      eventsUnder L (configOf L b) conn := by
  unfold eventsUnder configOf
  rw [handshake_setup]

theorem eventsUnder_failed (L : Lib) (c : Config) (conn : Connection) (e : Error)
    (h : serverHandshake L c conn.client = .error e) :
    eventsUnder L c conn = [.handshakeFailed e] := by
  simp [eventsUnder, h]

theorem eventsUnder_rejects (L : Lib) (b : Bytes) (conn : Connection)
    (hbad : ∀ leaf rest, conn.client.hello.certificates = leaf :: rest →
      leaf.Verify L (some (poolOf L b)) rest = false) :
    ∃ e, eventsUnder L (configOf L b) conn = [.handshakeFailed e] := by
  cases h : serverHandshake L (configOf L b) conn.client with
  | error e => exact ⟨e, eventsUnder_failed L _ conn e h⟩
  | ok st =>
    obtain ⟨leaf, rest, hc, hv, _⟩ := handshake_ok L rootMux (poolOf L b) conn.client st h
    rw [hbad leaf rest hc] at hv
    cases hv

/-! ## Lemmas: what holds in every reachable state -/

theorem inv_init (L : Lib) (b : Bytes) : Inv L b init := by
  simp [Inv, init]

theorem inv_next (L : Lib) (W : World) (b : Bytes) (h : W.ReadFile "ca.crt" = .ok b)
    (s : State) (i : Input) (hs : Inv L b s) : Inv L b (next L W s i) := by
  obtain ⟨ctl, eff, served⟩ := s
  cases i with
  | statement =>
    cases ctl <;> simp only [Inv, next, step] at hs ⊢
    case l13 => simp [h, hs.1]
    case l14 c err =>
      obtain ⟨⟨rfl, rfl, rfl⟩, _⟩ := hs
      simp
    case l18 c => simp_all
    case l19 c p =>
      obtain ⟨⟨rfl, rfl, rfl⟩, _⟩ := hs
      simp [poolOf]
    case l21 c p => simp_all
    case l22 c p m =>
      obtain ⟨⟨rfl, rfl, rfl, rfl⟩, _⟩ := hs
      simp [handleFunc_root]
    case l26 c p m =>
      obtain ⟨⟨rfl, rfl, rfl, rfl⟩, _⟩ := hs
      simp
    case l37 c p m v => simp_all
    case l38 c p m v =>
      obtain ⟨⟨rfl, rfl, rfl, rfl, rfl⟩, _⟩ := hs
      cases W.ListenAndServeTLS (serverLiteral L rootMux (poolOf L c)) "server.crt"
        "server.key" <;> simp
    case inListenAndServeTLS c p m v => exact hs
    case l39 c p m v err =>
      cases err <;> exact ⟨trivial, hs.2⟩
    case panicked e => exact hs
    case returned => exact hs
  | incoming conn =>
    cases ctl <;> simp only [Inv, next] at hs ⊢ <;> try exact hs
    case inListenAndServeTLS c p m v =>
      obtain ⟨⟨rfl, rfl, rfl, rfl⟩, hserved⟩ := hs
      rw [serveConn_root L _ (setup_handler L rootMux (poolOf L c)) conn]
      refine ⟨⟨rfl, rfl, rfl, rfl⟩, ?_⟩
      intro q hq
      rcases List.mem_append.mp hq with hq | hq
      · exact hserved q hq
      · simp only [List.mem_singleton] at hq
        subst hq
        exact eventsUnder_setup L c conn

theorem inv_foldl (L : Lib) (W : World) (b : Bytes) (h : W.ReadFile "ca.crt" = .ok b)
    (inputs : List Input) (s : State) (hs : Inv L b s) :
    Inv L b (inputs.foldl (next L W) s) := by
  induction inputs generalizing s with
  | nil => exact hs
  | cons i rest ih => exact ih _ (inv_next L W b h s i hs)

theorem inv_reached (L : Lib) (W : World) (b : Bytes) (h : W.ReadFile "ca.crt" = .ok b)
    (inputs : List Input) : Inv L b (runInputs L W inputs) :=
  inv_foldl L W b h inputs init (inv_init L b)

/-- Every connection on record was served by the server `main` built from `ca.crt`. -/
theorem served_by_main (L : Lib) (W : World) (b : Bytes) (h : W.ReadFile "ca.crt" = .ok b)
    (inputs : List Input) (conn : Connection) (events : List ConnEvent)
    (hev : (conn, events) ∈ (runInputs L W inputs).served) :
    events = eventsUnder L (configOf L b) conn :=
  (inv_reached L W b h inputs).2 (conn, events) hev

/-! ## Lemmas: how `main` ends -/

theorem run_fix (L : Lib) (W : World) (s : State) (h : step L W s = s) (k : Nat) :
    run L W k s = s := by
  induction k with
  | zero => rfl
  | succ k ih => simp [run, h, ih]

theorem run_listen_blocks (L : Lib) (W : World) (b : Bytes)
    (h : W.ReadFile "ca.crt" = .ok b)
    (ho : W.ListenAndServeTLS (serverLiteral L rootMux (poolOf L b)) "server.crt"
      "server.key" = .blocks) (k : Nat) :
    run L W (9 + k) init =
      ⟨.inListenAndServeTLS b (poolOf L b) rootMux
          (setupHTTP2_ServeTLS (serverLiteral L rootMux (poolOf L b))),
        effectsOf (serverLiteral L rootMux (poolOf L b)), []⟩ := by
  rw [show 9 + k = 8 + (1 + k) by omega, run_add, run_to_listen L W b h, run_add]
  have h1 : run L W 1 ⟨.l38 b (poolOf L b) rootMux (serverLiteral L rootMux (poolOf L b)),
      [.readFile "ca.crt", .stdout banner], []⟩ =
      ⟨.inListenAndServeTLS b (poolOf L b) rootMux
          (setupHTTP2_ServeTLS (serverLiteral L rootMux (poolOf L b))),
        effectsOf (serverLiteral L rootMux (poolOf L b)), []⟩ := by
    simp [run, step, ho, effectsOf]
  rw [h1]
  exact run_fix L W _ rfl k

theorem run_listen_returns (L : Lib) (W : World) (b : Bytes)
    (h : W.ReadFile "ca.crt" = .ok b) (err : Option Error)
    (ho : W.ListenAndServeTLS (serverLiteral L rootMux (poolOf L b)) "server.crt"
      "server.key" = .returns err) :
    run L W 9 init =
      ⟨.l39 b (poolOf L b) rootMux
          (setupHTTP2_ServeTLS (serverLiteral L rootMux (poolOf L b))) err,
        effectsOf (serverLiteral L rootMux (poolOf L b)), []⟩ := by
  rw [show 9 = 8 + 1 by omega, run_add, run_to_listen L W b h]
  simp [run, step, ho, effectsOf]

theorem run_listen_fails (L : Lib) (W : World) (b : Bytes)
    (h : W.ReadFile "ca.crt" = .ok b) (e : Error)
    (ho : W.ListenAndServeTLS (serverLiteral L rootMux (poolOf L b)) "server.crt"
      "server.key" = .fails e) :
    run L W 9 init =
      ⟨.l39 b (poolOf L b) rootMux (serverLiteral L rootMux (poolOf L b)) (some e),
        effectsOf (serverLiteral L rootMux (poolOf L b)), []⟩ := by
  rw [show 9 = 8 + 1 by omega, run_add, run_to_listen L W b h]
  simp [run, step, ho, effectsOf]

/-- From line 39 with a non-nil error `main` panics with it, and stays there. -/
theorem run_from_l39_error (L : Lib) (W : World) (c : Bytes) (p : CertPool) (m : ServeMux)
    (v : Server) (e : Error) (eff : List Effect) (k : Nat) :
    run L W (1 + k) ⟨.l39 c p m v (some e), eff, []⟩ = ⟨.panicked e, eff, []⟩ := by
  rw [run_add]
  have h1 : run L W 1 ⟨.l39 c p m v (some e), eff, []⟩ = ⟨.panicked e, eff, []⟩ := by
    simp [run, step]
  rw [h1]
  exact run_fix L W _ rfl k

theorem run_listen_error (L : Lib) (W : World) (b : Bytes)
    (h : W.ReadFile "ca.crt" = .ok b) (e : Error)
    (ho : W.ListenAndServeTLS (serverLiteral L rootMux (poolOf L b)) "server.crt"
      "server.key" = .returns (some e)) (k : Nat) :
    run L W (10 + k) init =
      ⟨.panicked e, effectsOf (serverLiteral L rootMux (poolOf L b)), []⟩ := by
  rw [show 10 + k = 9 + (1 + k) by omega, run_add, run_listen_returns L W b h _ ho]
  exact run_from_l39_error L W _ _ _ _ e _ k

theorem run_listen_refused (L : Lib) (W : World) (b : Bytes)
    (h : W.ReadFile "ca.crt" = .ok b) (e : Error)
    (ho : W.ListenAndServeTLS (serverLiteral L rootMux (poolOf L b)) "server.crt"
      "server.key" = .fails e) (k : Nat) :
    run L W (10 + k) init =
      ⟨.panicked e, effectsOf (serverLiteral L rootMux (poolOf L b)), []⟩ := by
  rw [show 10 + k = 9 + (1 + k) by omega, run_add, run_listen_fails L W b h _ ho]
  exact run_from_l39_error L W _ _ _ _ e _ k

theorem run_listen_nil (L : Lib) (W : World) (b : Bytes)
    (h : W.ReadFile "ca.crt" = .ok b)
    (ho : W.ListenAndServeTLS (serverLiteral L rootMux (poolOf L b)) "server.crt"
      "server.key" = .returns none) (k : Nat) :
    run L W (10 + k) init =
      ⟨.returned, effectsOf (serverLiteral L rootMux (poolOf L b)), []⟩ := by
  rw [show 10 + k = 9 + (1 + k) by omega, run_add, run_listen_returns L W b h _ ho, run_add]
  have h1 : run L W 1 ⟨.l39 b (poolOf L b) rootMux
      (setupHTTP2_ServeTLS (serverLiteral L rootMux (poolOf L b))) none,
      effectsOf (serverLiteral L rootMux (poolOf L b)), []⟩ =
      ⟨.returned, effectsOf (serverLiteral L rootMux (poolOf L b)), []⟩ := by
    simp [run, step]
  rw [h1]
  exact run_fix L W _ rfl k

/-- The effects of a run that read `ca.crt`, from the ninth statement on. -/
theorem run_effects (L : Lib) (W : World) (b : Bytes) (h : W.ReadFile "ca.crt" = .ok b)
    (n : Nat) (hn : 9 ≤ n) :
    (run L W n init).effects = effectsOf (serverLiteral L rootMux (poolOf L b)) := by
  obtain ⟨k, rfl⟩ := Nat.exists_eq_add_of_le hn
  cases ho : W.ListenAndServeTLS (serverLiteral L rootMux (poolOf L b)) "server.crt"
      "server.key" with
  | blocks => rw [run_listen_blocks L W b h ho]
  | returns err =>
    cases k with
    | zero => rw [run_listen_returns L W b h err ho]
    | succ k =>
      rw [show 9 + (k + 1) = 10 + k by omega]
      cases err with
      | none => rw [run_listen_nil L W b h ho]
      | some e => rw [run_listen_error L W b h e ho]
  | fails e =>
    cases k with
    | zero => rw [run_listen_fails L W b h e ho]
    | succ k =>
      rw [show 9 + (k + 1) = 10 + k by omega, run_listen_refused L W b h e ho]

/-! ## Lemmas: what a move leaves alone -/

theorem sameButALPN_refl (c : Config) : Config.sameButALPN c c := rfl

/-- Setting a server up for HTTP/2 writes no field of its TLS configuration but
`NextProtos` and `PreferServerCipherSuites`. -/
theorem setup_sameButALPN (s : Server) :
    Config.sameButALPN (s.TLSConfig.getD {}) ((setupHTTP2_ServeTLS s).TLSConfig.getD {}) := by
  unfold setupHTTP2_ServeTLS http2ConfigureServer
  dsimp only
  split_ifs <;> rfl

/-- In a reachable state that is not at line 38, a move keeps the server and the pool
exactly, unless it ends the process. -/
theorem next_keeps (L : Lib) (W : World) (b : Bytes) (srv : Server) (pool : CertPool)
    (t : State) (i : Input) (hinv : Inv L b t)
    (hat : ∀ c p m v, t.ctl ≠ .l38 c p m v)
    (hsrv : t.ctl.srv = some srv) (hpool : t.ctl.caCertPool = some pool) :
    (next L W t i).ctl.ended = true ∨
      ((next L W t i).ctl.srv = some srv ∧ (next L W t i).ctl.caCertPool = some pool) := by
  obtain ⟨ctl, eff, served⟩ := t
  cases i with
  | statement =>
    cases ctl with
    | l13 => simp [Control.srv] at hsrv
    | l14 c err => simp [Control.srv] at hsrv
    | l18 c => simp [Control.srv] at hsrv
    | l19 c p => simp [Control.srv] at hsrv
    | l21 c p => simp [Control.srv] at hsrv
    | l22 c p m => simp [Control.srv] at hsrv
    | l26 c p m => simp [Control.srv] at hsrv
    | l37 c p m v => exact Or.inr ⟨hsrv, hpool⟩
    | l38 c p m v => exact absurd rfl (hat c p m v)
    | inListenAndServeTLS c p m v => exact Or.inr ⟨hsrv, hpool⟩
    | l39 c p m v err => cases err <;> simp [next, step, Control.ended]
    | panicked e => simp [Control.srv] at hsrv
    | returned => simp [Control.srv] at hsrv
  | incoming conn =>
    cases ctl
    case inListenAndServeTLS c p m v =>
      obtain ⟨⟨rfl, rfl, rfl, rfl⟩, _⟩ := hinv
      simp only [next]
      rw [serveConn_root L _ (setup_handler L rootMux (poolOf L c)) conn]
      exact Or.inr ⟨hsrv, hpool⟩
    all_goals exact Or.inr ⟨hsrv, hpool⟩

/-- Serving a connection changes neither the variables nor the effects of `main`. -/
theorem incoming_keeps (L : Lib) (W : World) (b : Bytes) (t : State) (conn : Connection)
    (hinv : Inv L b t) :
    (next L W t (.incoming conn)).ctl = t.ctl ∧
      (next L W t (.incoming conn)).effects = t.effects := by
  obtain ⟨ctl, eff, served⟩ := t
  cases ctl
  case inListenAndServeTLS c p m v =>
    obtain ⟨⟨rfl, rfl, rfl, rfl⟩, _⟩ := hinv
    simp only [next]
    rw [serveConn_root L _ (setup_handler L rootMux (poolOf L c)) conn]
    simp
  all_goals exact ⟨rfl, rfl⟩

/-- In a state that satisfies the invariant and has a server, pool and server are those
`main` built, the server possibly after `ServeTLS` has set it up. -/
theorem inv_values (L : Lib) (b : Bytes) (t : State) (srv : Server) (pool : CertPool)
    (hinv : Inv L b t) (hsrv : t.ctl.srv = some srv) (hpool : t.ctl.caCertPool = some pool) :
    pool = poolOf L b ∧
      (srv = serverLiteral L rootMux (poolOf L b) ∨
        srv = setupHTTP2_ServeTLS (serverLiteral L rootMux (poolOf L b))) := by
  obtain ⟨ctl, eff, served⟩ := t
  cases ctl <;> simp only [Control.srv, Control.caCertPool, Option.some.injEq] at hsrv hpool <;>
    simp only [Inv] at hinv
  case l37 c p m v =>
    obtain ⟨⟨_, hp, _, hv, _⟩, _⟩ := hinv
    exact ⟨hpool ▸ hp, Or.inl (hsrv ▸ hv)⟩
  case l38 c p m v =>
    obtain ⟨⟨_, hp, _, hv, _⟩, _⟩ := hinv
    exact ⟨hpool ▸ hp, Or.inl (hsrv ▸ hv)⟩
  case inListenAndServeTLS c p m v =>
    obtain ⟨⟨_, hp, _, hv⟩, _⟩ := hinv
    exact ⟨hpool ▸ hp, Or.inr (hsrv ▸ hv)⟩
  case l39 c p m v err =>
    obtain ⟨⟨_, hp, _, hv⟩, _⟩ := hinv
    exact ⟨hpool ▸ hp, hsrv ▸ hv⟩
  all_goals cases hsrv

/-- Once there is a server there is one, and a pool, until the process ends. -/
theorem has_srv_next (L : Lib) (W : World) (t : State) (i : Input)
    (h : t.ctl.ended = true ∨
      ∃ srv pool, t.ctl.srv = some srv ∧ t.ctl.caCertPool = some pool) :
    (next L W t i).ctl.ended = true ∨
      ∃ srv pool, (next L W t i).ctl.srv = some srv ∧
        (next L W t i).ctl.caCertPool = some pool := by
  obtain ⟨ctl, eff, served⟩ := t
  cases i with
  | statement =>
    cases ctl with
    | l13 => simp [Control.ended, Control.srv] at h
    | l14 c err => simp [Control.ended, Control.srv] at h
    | l18 c => simp [Control.ended, Control.srv] at h
    | l19 c p => simp [Control.ended, Control.srv] at h
    | l21 c p => simp [Control.ended, Control.srv] at h
    | l22 c p m => simp [Control.ended, Control.srv] at h
    | l26 c p m => simp [Control.ended, Control.srv] at h
    | l37 c p m v => exact Or.inr ⟨v, p, rfl, rfl⟩
    | l38 c p m v =>
      simp only [next, step]
      cases W.ListenAndServeTLS v "server.crt" "server.key" <;>
        exact Or.inr ⟨_, _, rfl, rfl⟩
    | inListenAndServeTLS c p m v => exact Or.inr ⟨v, p, rfl, rfl⟩
    | l39 c p m v err => cases err <;> simp [next, step, Control.ended]
    | panicked e => exact Or.inl rfl
    | returned => exact Or.inl rfl
  | incoming conn =>
    cases ctl
    case inListenAndServeTLS c p m v => exact Or.inr ⟨_, _, rfl, rfl⟩
    all_goals exact h

theorem has_srv_foldl (L : Lib) (W : World) (inputs : List Input) (t : State)
    (h : t.ctl.ended = true ∨
      ∃ srv pool, t.ctl.srv = some srv ∧ t.ctl.caCertPool = some pool) :
    (inputs.foldl (next L W) t).ctl.ended = true ∨
      ∃ srv pool, (inputs.foldl (next L W) t).ctl.srv = some srv ∧
        (inputs.foldl (next L W) t).ctl.caCertPool = some pool := by
  induction inputs generalizing t with
  | nil => exact h
  | cons i rest ih => exact ih _ (has_srv_next L W t i h)

/-! ## The contract -/

/-- C1: a connection whose client presents no certificate, or a chain that does not verify
against the pool built from `ca.crt`, fails its handshake and nothing else happens on it:
the handler does not run and no response goes out. Conversely a request is only ever
served on a connection whose client certificate verified against `ClientCAs`. -/
theorem unverified_client_is_never_served (L : Lib) (W : World) (b : Bytes)
    (inputs : List Input) (conn : Connection) (events : List ConnEvent)
    (hread : W.ReadFile "ca.crt" = .ok b)
    (hev : (conn, events) ∈ (runInputs L W inputs).served) :
    ((conn.client.hello.certificates = [] ∨
        ∃ leaf rest, conn.client.hello.certificates = leaf :: rest ∧
          leaf.Verify L (some (NewCertPool.AppendCertsFromPEM L b).1) rest = false) →
      ∃ e, events = [.handshakeFailed e]) ∧
    ((∃ r calls resp, ConnEvent.served r calls resp ∈ events) →
      ∃ leaf rest, conn.client.hello.certificates = leaf :: rest ∧
        leaf.Verify L (some (NewCertPool.AppendCertsFromPEM L b).1) rest = true) := by
  have hs := served_by_main L W b hread inputs conn events hev
  constructor
  · intro hbad
    rw [hs]
    apply eventsUnder_rejects
    intro leaf rest hc
    rcases hbad with hnil | ⟨leaf', rest', hc', hv⟩
    · rw [hnil] at hc; cases hc
    · rw [hc'] at hc
      cases hc
      exact hv
  · rintro ⟨r, calls, resp, hmem⟩
    rw [hs] at hmem
    cases hh : serverHandshake L (configOf L b) conn.client with
    | error e =>
      rw [eventsUnder_failed L _ conn e hh] at hmem
      simp at hmem
    | ok st =>
      obtain ⟨leaf, rest, hc, hv, _⟩ := handshake_ok L rootMux (poolOf L b) conn.client st hh
      exact ⟨leaf, rest, hc, hv⟩

/-- Instance of C1: a client without a certificate, arriving while the sample server
runs, gets a failed handshake and nothing more. -/
theorem unverified_client_is_never_served_witness :
    (sampleConnNoCert,
        [ConnEvent.handshakeFailed ⟨"tls: client didn't provide a certificate"⟩]) ∈
        (runInputs sampleLib sampleWorld (sampleInputs [sampleConnNoCert])).served ∧
      ∃ e, [ConnEvent.handshakeFailed ⟨"tls: client didn't provide a certificate"⟩] =
        [ConnEvent.handshakeFailed e] :=
  ⟨by decide,
    (unverified_client_is_never_served sampleLib sampleWorld [1]
      (sampleInputs [sampleConnNoCert]) sampleConnNoCert _ rfl (by decide)).1 (Or.inl rfl)⟩

/-- C2: when `ca.crt` is read, the server `main` builds, and later passes to
`ListenAndServeTLS`, carries a TLS configuration with `MinVersion` TLS 1.2, `ClientAuth`
`RequireAndVerifyClientCert` and `ClientCAs` the pool got by appending the bytes read to a
fresh pool; every other field of the configuration has its zero value. -/
theorem tls_config_of_main (L : Lib) (W : World) (b : Bytes)
    (hread : W.ReadFile "ca.crt" = .ok b) :
    ∃ srv cfg, (run L W 7 init).ctl.srv = some srv ∧
      (∀ n, 9 ≤ n → (run L W n init).effects =
        [.readFile "ca.crt", .stdout "Starting mTLS server on https://backup.local:8443\n",
          .listenAndServeTLS srv "server.crt" "server.key"]) ∧
      srv.TLSConfig = some cfg ∧
      cfg.MinVersion = VersionTLS12 ∧ VersionTLS12 = 0x0303 ∧
      cfg.ClientAuth = .RequireAndVerifyClientCert ∧
      cfg.ClientCAs = some (NewCertPool.AppendCertsFromPEM L b).1 ∧
      cfg.Certificates = [] ∧ cfg.GetCertificate = none ∧ cfg.GetClientCertificate = none ∧
      cfg.VerifyPeerCertificate = none ∧ cfg.VerifyConnection = none ∧ cfg.RootCAs = none ∧
      cfg.NextProtos = [] ∧ cfg.ServerName = "" ∧ cfg.InsecureSkipVerify = false ∧
      cfg.CipherSuites = [] ∧ cfg.PreferServerCipherSuites = false ∧
      cfg.SessionTicketsDisabled = false ∧ cfg.MaxVersion = 0 ∧ cfg.CurvePreferences = [] ∧
      cfg.DynamicRecordSizingDisabled = false ∧ cfg.Renegotiation = 0 := by
  refine ⟨serverLiteral L rootMux (poolOf L b),
    { MinVersion := VersionTLS12, ClientAuth := .RequireAndVerifyClientCert,
      ClientCAs := some (poolOf L b) }, ?_, ?_, rfl, rfl, rfl, rfl, rfl, rfl, rfl, rfl,
    rfl, rfl, rfl, rfl, rfl, rfl, rfl, rfl, rfl, rfl, rfl, rfl, rfl⟩
  · simp [run, step, init, hread, handleFunc_root, poolOf, Control.srv]
  · intro n hn
    exact run_effects L W b hread n hn

/-- Instance of C2 in the sample world. -/
theorem tls_config_of_main_witness :
    ∃ srv cfg, (run sampleLib sampleWorld 7 init).ctl.srv = some srv ∧
      srv.TLSConfig = some cfg ∧ cfg.MinVersion = 771 ∧
      cfg.ClientAuth = .RequireAndVerifyClientCert ∧ cfg.ClientCAs = some ⟨[⟨[1]⟩]⟩ ∧
      cfg.NextProtos = [] ∧ cfg.CipherSuites = [] := by
  obtain ⟨srv, cfg, h1, _, h3, h4, h5, h6, h7, _, _, _, _, _, _, h14, _, _, h17, _⟩ :=
    tls_config_of_main sampleLib sampleWorld [1] rfl
  exact ⟨srv, cfg, h1, h3, h4.trans h5, h6, h7, h14, h17⟩

/-- C3: when reading `ca.crt` fails with `e`, `main` panics with `e` as its second step
and stays there; the only states the process ever is in are the start, the state after the
failed read, and the panic. None of them has a pool, a route, a server, a banner on
standard output, a read of another file, a call of `ListenAndServeTLS`, or a served
connection. -/
theorem missing_ca_panics_first (L : Lib) (W : World) (e : Error)
    (hread : W.ReadFile "ca.crt" = .error e) :
    (∀ n, 2 ≤ n → run L W n init = ⟨.panicked e, [.readFile "ca.crt"], []⟩) ∧
    (∀ inputs, runInputs L W inputs = init ∨
      runInputs L W inputs = ⟨.l14 [] (some e), [.readFile "ca.crt"], []⟩ ∨
      runInputs L W inputs = ⟨.panicked e, [.readFile "ca.crt"], []⟩) := by
  constructor
  · intro n hn
    obtain ⟨k, rfl⟩ := Nat.exists_eq_add_of_le hn
    rw [Nat.add_comm]
    exact run_read_error L W e hread k
  · intro inputs
    have key : ∀ (l : List Input) (s : State),
        (s = init ∨ s = ⟨.l14 [] (some e), [.readFile "ca.crt"], []⟩ ∨
          s = ⟨.panicked e, [.readFile "ca.crt"], []⟩) →
        (l.foldl (next L W) s = init ∨
          l.foldl (next L W) s = ⟨.l14 [] (some e), [.readFile "ca.crt"], []⟩ ∨
          l.foldl (next L W) s = ⟨.panicked e, [.readFile "ca.crt"], []⟩) := by
      intro l
      induction l with
      | nil => intro s hs; exact hs
      | cons i rest ih =>
        intro s hs
        apply ih
        rcases hs with rfl | rfl | rfl <;> cases i <;> simp [next, step, init, hread]
    exact key inputs init (Or.inl rfl)

/-- Instance of C3: without `ca.crt` the sample process has panicked after two steps,
having done nothing but the read. -/
theorem missing_ca_panics_first_witness :
    run sampleLib sampleWorldNoCA 2 init =
      ⟨.panicked ⟨"open ca.crt: no such file or directory"⟩, [.readFile "ca.crt"], []⟩ :=
  (missing_ca_panics_first sampleLib sampleWorldNoCA
    ⟨"open ca.crt: no such file or directory"⟩ rfl).1 2 (le_refl 2)

/-- C4, as amended: on a connection whose handshake succeeded, every request whose target
is not `*` and whose path is in canonical form (`cleanPath` leaves it as it is) reaches
the fixed-body handler, whatever its method: the handler makes the single write of
`"Hello, mTLS world!\n"`, and the response has status 200 and that body, except that the
response to a HEAD has an empty body. -/
theorem canonical_request_gets_hello (L : Lib) (W : World) (b : Bytes)
    (inputs : List Input) (conn : Connection) (events : List ConnEvent)
    (hread : W.ReadFile "ca.crt" = .ok b)
    (hev : (conn, events) ∈ (runInputs L W inputs).served)
    (hest : ∃ st, ConnEvent.handshakeDone st ∈ events)
    (r : Request) (hr : r ∈ conn.requests)
    (hstar : r.RequestURI ≠ "*") (hcanon : cleanPath r.Path = r.Path) :
    ConnEvent.served r [.write "Hello, mTLS world!\n"]
        ⟨200, [], if r.Method = "HEAD" then "" else "Hello, mTLS world!\n"⟩ ∈ events ∧
      ∀ calls resp, ConnEvent.served r calls resp ∈ events →
        calls = [.write "Hello, mTLS world!\n"] ∧
          resp = ⟨200, [], if r.Method = "HEAD" then "" else "Hello, mTLS world!\n"⟩ := by
  have hs := served_by_main L W b hread inputs conn events hev
  obtain ⟨st0, hst0⟩ := hest
  have hone : ∀ q : Request, q.RequestURI ≠ "*" → cleanPath q.Path = q.Path →
      ConnEvent.served q (rootReply L {} q).calls
          (finishRequest q.Method (rootReply L {} q)) =
        ConnEvent.served q [.write "Hello, mTLS world!\n"]
          ⟨200, [], if q.Method = "HEAD" then "" else "Hello, mTLS world!\n"⟩ := by
    intro q hq1 hq2
    rw [rootReply_canonical L {} q hq1 hq2]
    simp only [List.nil_append]
    rw [finish_hello]
  cases hh : serverHandshake L (configOf L b) conn.client with
  | error e =>
    rw [hs, eventsUnder_failed L _ conn e hh] at hst0
    simp at hst0
  | ok st =>
    have hform : events = .handshakeDone st :: conn.requests.map (fun q =>
        ConnEvent.served q (rootReply L {} q).calls
          (finishRequest q.Method (rootReply L {} q))) := by
      rw [hs]
      simp [eventsUnder, hh]
    constructor
    · rw [hform]
      apply List.mem_cons_of_mem
      rw [List.mem_map]
      exact ⟨r, hr, hone r hstar hcanon⟩
    · intro calls resp hmem
      rw [hform] at hmem
      rcases List.mem_cons.mp hmem with hbad | hmem
      · cases hbad
      · obtain ⟨q, _, hq⟩ := List.mem_map.mp hmem
        have hqr : q = r := by
          injection hq
        subst hqr
        rw [hone q hstar hcanon] at hq
        injection hq with _ h2 h3
        exact ⟨h2.symm, h3.symm⟩

/-- Instance of the amended C4: the served `POST /a/b/` of the sample connection. -/
theorem canonical_request_gets_hello_witness :
    ConnEvent.served (sampleRequest "POST" "/a/b/") [.write "Hello, mTLS world!\n"]
        ⟨200, [], if (sampleRequest "POST" "/a/b/").Method = "HEAD" then ""
          else "Hello, mTLS world!\n"⟩ ∈
      (serveConn sampleLib (serverLiteral sampleLib rootMux ⟨[⟨[1]⟩]⟩) sampleConnTrusted
        ⟨⟨[⟨[1]⟩]⟩, none⟩).2 :=
  (canonical_request_gets_hello sampleLib sampleWorld [1] (sampleInputs [sampleConnTrusted])
    sampleConnTrusted _ rfl (by decide) ⟨⟨VersionTLS13, [⟨[2]⟩], true⟩, by decide⟩
    (sampleRequest "POST" "/a/b/") (by decide) (by decide) (by decide)).1

/-- C4 as stated fails: on the sample connection, whose client certificate verifies and
whose handshake succeeds, `GET //x` is answered with status 301 and a redirect note, and
`HEAD /` with status 200 and an empty body. -/
theorem noncanonical_path_is_redirected :
    ∃ events,
      (sampleConnTrusted, events) ∈
        (runInputs sampleLib sampleWorld (sampleInputs [sampleConnTrusted])).served ∧
      ConnEvent.handshakeDone ⟨VersionTLS13, [⟨[2]⟩], true⟩ ∈ events ∧
      ConnEvent.served (sampleRequest "GET" "//x")
        [.setHeader "Location" "/x", .setHeader "Content-Type" "text/html; charset=utf-8",
          .writeHeader 301, .write "<a href=\"/x\">Moved Permanently</a>.\n\n"]
        ⟨301, [("Location", "/x"), ("Content-Type", "text/html; charset=utf-8")],
          "<a href=\"/x\">Moved Permanently</a>.\n\n"⟩ ∈ events ∧
      ConnEvent.served (sampleRequest "HEAD" "/") [.write "Hello, mTLS world!\n"]
        ⟨200, [], ""⟩ ∈ events :=
  ⟨(serveConn sampleLib (serverLiteral sampleLib rootMux ⟨[⟨[1]⟩]⟩) sampleConnTrusted
      ⟨⟨[⟨[1]⟩]⟩, none⟩).2,
    by decide, by decide, by decide, by decide⟩

/-- C5: the multiplexer `main` builds, and installs as the handler of its server, has
exactly one route, with pattern `/`. Its handler, for every request and every writer,
makes one call on the writer, a write of `"Hello, mTLS world!\n"`, and leaves the shared
objects as they are: no header is set and no status is written, so a response made of it
has the implicit status 200; and what it does is the same for any two requests. The body
of a response made of it is that text, or empty when the method is HEAD. -/
theorem one_route_fixed_body (L : Lib) (W : World) (b : Bytes)
    (hread : W.ReadFile "ca.crt" = .ok b) :
    ∃ mux srv, (run L W 6 init).ctl.mux = some mux ∧ (run L W 8 init).ctl.mux = some mux ∧
      (run L W 8 init).ctl.srv = some srv ∧ srv.Handler = some (mux.ServeHTTP L) ∧
      mux.m.map (fun e => e.pattern) = ["/"] ∧
      ∀ e ∈ mux.m,
        (∀ w r sh, e.h w r sh = (sh, ⟨w.calls ++ [.write "Hello, mTLS world!\n"]⟩)) ∧
        (∀ w r r' sh, e.h w r sh = e.h w r' sh) ∧
        (∀ method r sh, finishRequest method (e.h {} r sh).2 =
          ⟨200, [], if method = "HEAD" then "" else "Hello, mTLS world!\n"⟩) := by
  refine ⟨rootMux, serverLiteral L rootMux (poolOf L b), ?_, ?_, ?_, rfl, rfl, ?_⟩
  · simp [run, step, init, hread, handleFunc_root, Control.mux]
  · rw [run_to_listen L W b hread]; rfl
  · rw [run_to_listen L W b hread]; rfl
  · intro e he
    have he' : e.h = main_func1 := by
      simp [rootMux] at he
      rw [he]
    refine ⟨?_, ?_, ?_⟩
    · intro w r sh
      rw [he', main_func1_calls]
    · intro w r r' sh
      rw [he', main_func1_calls, main_func1_calls]
    · intro method r sh
      rw [he', main_func1_calls]
      simpa using finish_hello method

/-- Instance of C5 in the sample world. -/
theorem one_route_fixed_body_witness :
    ∃ mux, (run sampleLib sampleWorld 6 init).ctl.mux = some mux ∧
      mux.m.map (fun e => e.pattern) = ["/"] ∧
      ∀ e ∈ mux.m, ∀ r sh,
        finishRequest "GET" (e.h {} r sh).2 = ⟨200, [], "Hello, mTLS world!\n"⟩ := by
  obtain ⟨mux, _, h1, _, _, _, h5, h6⟩ := one_route_fixed_body sampleLib sampleWorld [1] rfl
  exact ⟨mux, h1, h5, fun e he r sh => (h6 e he).2.2 "GET" r sh⟩

/-- C6: a client all of whose offered protocol versions are below TLS 1.2 fails its
handshake on the version, under the configuration of `main`; the failure is all that
happens on the connection, so none of its requests is served. -/
theorem old_protocol_is_rejected (L : Lib) (W : World) (b : Bytes)
    (inputs : List Input) (conn : Connection) (events : List ConnEvent)
    (hread : W.ReadFile "ca.crt" = .ok b)
    (hev : (conn, events) ∈ (runInputs L W inputs).served)
    (hold : ∀ v ∈ conn.client.hello.supportedVersions, v < VersionTLS12) :
    events = [.handshakeFailed ⟨"tls: client offered only unsupported versions"⟩] ∧
      VersionTLS11 < VersionTLS12 := by
  refine ⟨?_, by decide⟩
  rw [served_by_main L W b hread inputs conn events hev]
  apply eventsUnder_failed
  unfold configOf
  rw [serverLiteral_config]
  unfold serverHandshake
  rw [mutualVersion_old _ rfl _ hold]

/-- Instance of C6: the sample client that offers TLS 1.0 and 1.1 only, although its
certificate would verify. -/
theorem old_protocol_is_rejected_witness :
    (∀ v ∈ sampleConnOld.client.hello.supportedVersions, v < VersionTLS12) ∧
      (serveConn sampleLib (serverLiteral sampleLib rootMux ⟨[⟨[1]⟩]⟩) sampleConnOld
          ⟨⟨[⟨[1]⟩]⟩, none⟩).2 =
        [.handshakeFailed ⟨"tls: client offered only unsupported versions"⟩] :=
  ⟨by decide,
    (old_protocol_is_rejected sampleLib sampleWorld [1] (sampleInputs [sampleConnOld])
      sampleConnOld _ rfl (by decide) (by decide)).1⟩

/-- C7: when `ca.crt` is read and the call of `ListenAndServeTLS` returns a non-nil error,
be it from `ServeTLS` or at once because the listener could not be opened, `main` panics
with that very error, after the one call and with nothing done in between or afterwards;
and `main` is in its returned state exactly when the call has returned a nil error. -/
theorem listen_error_is_fatal (L : Lib) (W : World) (b : Bytes)
    (hread : W.ReadFile "ca.crt" = .ok b) :
    ∃ srv, (run L W 8 init).ctl.srv = some srv ∧
      (∀ e, W.ListenAndServeTLS srv "server.crt" "server.key" = .returns (some e) →
        ∀ n, 10 ≤ n → run L W n init =
          ⟨.panicked e,
            [.readFile "ca.crt", .stdout "Starting mTLS server on https://backup.local:8443\n",
              .listenAndServeTLS srv "server.crt" "server.key"], []⟩) ∧
      (∀ n, (run L W n init).ctl = .returned ↔
        10 ≤ n ∧ W.ListenAndServeTLS srv "server.crt" "server.key" = .returns none) ∧
      (∀ e, W.ListenAndServeTLS srv "server.crt" "server.key" = .fails e →
        ∀ n, 10 ≤ n → run L W n init =
          ⟨.panicked e,
            [.readFile "ca.crt", .stdout "Starting mTLS server on https://backup.local:8443\n",
              .listenAndServeTLS srv "server.crt" "server.key"], []⟩) := by
  refine ⟨serverLiteral L rootMux (poolOf L b), ?_, ?_, ?_, ?_⟩
  · rw [run_to_listen L W b hread]; rfl
  · intro e ho n hn
    obtain ⟨k, rfl⟩ := Nat.exists_eq_add_of_le hn
    exact run_listen_error L W b hread e ho k
  · intro n
    constructor
    · intro hret
      by_cases hn : n ≤ 8
      · exfalso
        interval_cases n <;>
          simp [run, step, init, hread, handleFunc_root] at hret
      · have hn9 : 9 ≤ n := by omega
        obtain ⟨k, rfl⟩ := Nat.exists_eq_add_of_le hn9
        cases ho : W.ListenAndServeTLS (serverLiteral L rootMux (poolOf L b)) "server.crt"
            "server.key" with
        | blocks =>
          rw [run_listen_blocks L W b hread ho] at hret
          cases hret
        | returns err =>
          cases k with
          | zero =>
            rw [run_listen_returns L W b hread err ho] at hret
            cases hret
          | succ k =>
            rw [show 9 + (k + 1) = 10 + k by omega] at hret ⊢
            cases err with
            | none => exact ⟨by omega, rfl⟩
            | some e =>
              rw [run_listen_error L W b hread e ho] at hret
              cases hret
        | fails e =>
          cases k with
          | zero =>
            rw [run_listen_fails L W b hread e ho] at hret
            cases hret
          | succ k =>
            rw [show 9 + (k + 1) = 10 + k by omega, run_listen_refused L W b hread e ho]
              at hret
            cases hret
    · rintro ⟨hn, ho⟩
      obtain ⟨k, rfl⟩ := Nat.exists_eq_add_of_le hn
      rw [run_listen_nil L W b hread ho]
  · intro e ho n hn
    obtain ⟨k, rfl⟩ := Nat.exists_eq_add_of_le hn
    exact run_listen_refused L W b hread e ho k

/-- Instance of C7: with the port taken, and likewise with `server.key` missing, the
sample process ends in a panic carrying the error of the call. -/
theorem listen_error_is_fatal_witness :
    (run sampleLib sampleWorldPortTaken 10 init).ctl =
        .panicked ⟨"listen tcp :8443: bind: address already in use"⟩ ∧
      (run sampleLib sampleWorldNoKey 10 init).ctl =
        .panicked ⟨"open server.key: no such file or directory"⟩ := by
  constructor
  · obtain ⟨srv, _, _, _, h⟩ := listen_error_is_fatal sampleLib sampleWorldPortTaken [1] rfl
    rw [h ⟨"listen tcp :8443: bind: address already in use"⟩ rfl 10 (le_refl 10)]
  · obtain ⟨srv, _, h, _⟩ := listen_error_is_fatal sampleLib sampleWorldNoKey [1] rfl
    rw [h ⟨"open server.key: no such file or directory"⟩ rfl 10 (le_refl 10)]

/-- C8: what `main` does to its surroundings is fixed: in every run it reads `ca.crt`
once and, if the read fails, does nothing else; if the read succeeds it prints the banner
and calls `ListenAndServeTLS` once, on a server with address `:8443`, with `server.crt`
and `server.key`, in this order, and does nothing else. Two worlds that differ only in
arguments and environment give the same run. -/
theorem fixed_files_and_address (L : Lib) (W : World) :
    (∀ n, 10 ≤ n →
      (∃ e, W.ReadFile "ca.crt" = .error e ∧
        (run L W n init).effects = [.readFile "ca.crt"]) ∨
      (∃ b srv, W.ReadFile "ca.crt" = .ok b ∧ srv.Addr = ":8443" ∧
        (run L W n init).effects =
          [.readFile "ca.crt", .stdout "Starting mTLS server on https://backup.local:8443\n",
            .listenAndServeTLS srv "server.crt" "server.key"])) ∧
    (∀ W' : World, W'.ReadFile = W.ReadFile → W'.ListenAndServeTLS = W.ListenAndServeTLS →
      ∀ n, run L W' n init = run L W n init) := by
  constructor
  · intro n hn
    cases hread : W.ReadFile "ca.crt" with
    | error e =>
      left
      refine ⟨e, rfl, ?_⟩
      obtain ⟨k, rfl⟩ := Nat.exists_eq_add_of_le (show 2 ≤ n by omega)
      rw [Nat.add_comm, run_read_error L W e hread k]
    | ok b =>
      right
      exact ⟨b, serverLiteral L rootMux (poolOf L b), rfl, rfl,
        run_effects L W b hread n (by omega)⟩
  · intro W' h1 h2 n
    have hstep : ∀ s, step L W' s = step L W s := by
      intro s
      obtain ⟨ctl, eff, served⟩ := s
      cases ctl <;> simp [step, h1, h2]
    have hrun : ∀ (k : Nat) (s : State), run L W' k s = run L W k s := by
      intro k
      induction k with
      | zero => intro s; rfl
      | succ k ih => intro s; simp [run, hstep, ih]
    exact hrun n init

/-- C9, as amended: once the server is built, no move of the process changes the
certificate pool, and none changes a field of the TLS configuration other than
`NextProtos` and `PreferServerCipherSuites`: after any sequence of statements of `main`
and of served connections, either the process has ended or the pool is what it was and
the configuration differs from what it was in these two fields at most. They are written
inside the call of line 38 and nowhere else: any other move, unless it ends the process,
leaves server and pool exactly as they were. In particular serving a connection, which is
where the registered handler runs, leaves the variables and the effects of `main` as they
are. -/
theorem config_written_by_listen_only (L : Lib) (W : World) (b : Bytes)
    (hread : W.ReadFile "ca.crt" = .ok b) (before : List Input) (srv : Server)
    (pool : CertPool) (hsrv : (runInputs L W before).ctl.srv = some srv)
    (hpool : (runInputs L W before).ctl.caCertPool = some pool) :
    (∀ after : List Input,
      (after.foldl (next L W) (runInputs L W before)).ctl.ended = true ∨
        ((after.foldl (next L W) (runInputs L W before)).ctl.caCertPool = some pool ∧
          ∃ srv', (after.foldl (next L W) (runInputs L W before)).ctl.srv = some srv' ∧
            srv'.Addr = srv.Addr ∧ srv'.Handler = srv.Handler ∧
            Config.sameButALPN (srv.TLSConfig.getD {}) (srv'.TLSConfig.getD {}))) ∧
    (∀ i : Input, (∀ c p m v, (runInputs L W before).ctl ≠ .l38 c p m v) →
      (next L W (runInputs L W before) i).ctl.ended = true ∨
        ((next L W (runInputs L W before) i).ctl.srv = some srv ∧
          (next L W (runInputs L W before) i).ctl.caCertPool = some pool)) ∧
    (∀ conn, (next L W (runInputs L W before) (.incoming conn)).ctl =
        (runInputs L W before).ctl ∧
      (next L W (runInputs L W before) (.incoming conn)).effects =
        (runInputs L W before).effects) := by
  have hinv := inv_reached L W b hread before
  obtain ⟨hp, hv⟩ := inv_values L b _ srv pool hinv hsrv hpool
  refine ⟨?_, ?_, ?_⟩
  · intro after
    have hfold : after.foldl (next L W) (runInputs L W before) =
        runInputs L W (before ++ after) := by
      simp [runInputs, List.foldl_append]
    rw [hfold]
    have hinv' := inv_reached L W b hread (before ++ after)
    have hhas : (runInputs L W (before ++ after)).ctl.ended = true ∨
        ∃ srv' pool', (runInputs L W (before ++ after)).ctl.srv = some srv' ∧
          (runInputs L W (before ++ after)).ctl.caCertPool = some pool' := by
      rw [← hfold]
      exact has_srv_foldl L W after _ (Or.inr ⟨srv, pool, hsrv, hpool⟩)
    rcases hhas with hend | ⟨srv', pool', hsrv', hpool'⟩
    · exact Or.inl hend
    · right
      obtain ⟨hp', hv'⟩ := inv_values L b _ srv' pool' hinv' hsrv' hpool'
      refine ⟨by rw [hpool', hp', hp], srv', hsrv', ?_⟩
      rcases hv with rfl | rfl <;> rcases hv' with rfl | rfl
      · exact ⟨rfl, rfl, sameButALPN_refl _⟩
      · exact ⟨by rw [setup_serverLiteral], by rw [setup_serverLiteral],
          setup_sameButALPN _⟩
      · refine ⟨by rw [setup_serverLiteral], by rw [setup_serverLiteral], ?_⟩
        rw [setup_serverLiteral]
        rfl
      · exact ⟨rfl, rfl, sameButALPN_refl _⟩
  · intro i hat
    exact next_keeps L W b srv pool _ i hinv hat hsrv hpool
  · intro conn
    exact incoming_keeps L W b _ conn hinv

/-- Instance of the amended C9: from the sample state in which `main` is about to call
`ListenAndServeTLS`, the call and two connections leave the pool as it was and the
minimum version and client authentication mode of the configuration too. -/
theorem config_written_by_listen_only_witness :
    (runInputs sampleLib sampleWorld (List.replicate 8 Input.statement)).ctl.caCertPool =
        some ⟨[⟨[1]⟩]⟩ ∧
      ((sampleInputs [sampleConnTrusted, sampleConnNoCert]).foldl
          (next sampleLib sampleWorld) init).ctl.caCertPool = some ⟨[⟨[1]⟩]⟩ ∧
      ∃ srv', ((sampleInputs [sampleConnTrusted, sampleConnNoCert]).foldl
          (next sampleLib sampleWorld) init).ctl.srv = some srv' ∧
        (srv'.TLSConfig.getD {}).MinVersion = VersionTLS12 ∧
        (srv'.TLSConfig.getD {}).ClientAuth = .RequireAndVerifyClientCert := by
  rcases (config_written_by_listen_only sampleLib sampleWorld [1] rfl
    (List.replicate 8 Input.statement) (serverLiteral sampleLib rootMux ⟨[⟨[1]⟩]⟩)
    ⟨[⟨[1]⟩]⟩ rfl rfl).1
      (Input.statement :: [sampleConnTrusted, sampleConnNoCert].map Input.incoming)
    with h | ⟨hpool, srv', hsrv', _, _, hsame⟩
  · exact absurd h (by decide)
  · refine ⟨rfl, hpool, srv', hsrv', ?_, ?_⟩
    · rw [hsame]; rfl
    · rw [hsame]; rfl

/-- C9 as stated fails: in the sample world the call of line 38 writes to the TLS
configuration of the server `main` built. Before the call `NextProtos` is empty and
`PreferServerCipherSuites` is false; once `main` is inside the call they are
`["h2", "http/1.1"]` and true. -/
theorem listen_call_writes_tls_config :
    (run sampleLib sampleWorld 8 init).ctl.srv.map (fun v =>
        ((v.TLSConfig.getD {}).NextProtos, (v.TLSConfig.getD {}).PreferServerCipherSuites)) =
      some ([], false) ∧
    (run sampleLib sampleWorld 9 init).ctl.srv.map (fun v =>
        ((v.TLSConfig.getD {}).NextProtos, (v.TLSConfig.getD {}).PreferServerCipherSuites)) =
      some (["h2", "http/1.1"], true) := by
  decide

/-- C10: the result of `AppendCertsFromPEM` plays no part: whatever bytes `ca.crt` holds,
`main` reaches the call of `ListenAndServeTLS` with the route `/` registered and only the
read and the banner behind it, and the run has these two effects and the call, no panic
and no other output. When the bytes hold no certificate, the append reports failure, the
pool stays empty, and every connection ever served fails its handshake. -/
theorem append_result_is_ignored (L : Lib) (W : World) (b : Bytes)
    (hread : W.ReadFile "ca.crt" = .ok b) :
    ∃ mux srv,
      run L W 8 init =
        ⟨.l38 b (NewCertPool.AppendCertsFromPEM L b).1 mux srv,
          [.readFile "ca.crt", .stdout "Starting mTLS server on https://backup.local:8443\n"],
          []⟩ ∧
      mux.m.map (fun e => e.pattern) = ["/"] ∧
      (∀ n, 9 ≤ n → (run L W n init).effects =
        [.readFile "ca.crt", .stdout "Starting mTLS server on https://backup.local:8443\n",
          .listenAndServeTLS srv "server.crt" "server.key"]) ∧
      (L.pemCertificates b = [] →
        NewCertPool.AppendCertsFromPEM L b = (NewCertPool, false) ∧
        ∀ inputs conn events, (conn, events) ∈ (runInputs L W inputs).served →
          ∃ e, events = [.handshakeFailed e]) := by
  refine ⟨rootMux, serverLiteral L rootMux (poolOf L b), run_to_listen L W b hread, rfl,
    fun n hn => run_effects L W b hread n hn, ?_⟩
  intro hnone
  have hpool : NewCertPool.AppendCertsFromPEM L b = (NewCertPool, false) := by
    simp [CertPool.AppendCertsFromPEM, hnone]
  refine ⟨hpool, ?_⟩
  intro inputs conn events hev
  rw [served_by_main L W b hread inputs conn events hev]
  apply eventsUnder_rejects
  intro leaf rest _
  have : poolOf L b = NewCertPool := by simp [poolOf, hpool]
  rw [this]
  exact verify_empty_pool L leaf rest

/-- Instance of C10: with an empty `ca.crt` the sample process starts all the same, and
the client whose certificate the CA issued is turned away. -/
theorem append_result_is_ignored_witness :
    (run sampleLib sampleWorldEmptyCA 8 init).effects =
        [.readFile "ca.crt", .stdout "Starting mTLS server on https://backup.local:8443\n"] ∧
      ∃ e, (serveConn sampleLib (serverLiteral sampleLib rootMux NewCertPool)
        sampleConnTrusted ⟨NewCertPool, none⟩).2 = [.handshakeFailed e] := by
  obtain ⟨mux, srv, h1, _, _, h3⟩ :=
    append_result_is_ignored sampleLib sampleWorldEmptyCA [] rfl
  refine ⟨by rw [h1], ?_⟩
  exact (h3 rfl).2 (sampleInputs [sampleConnTrusted]) sampleConnTrusted _ (by decide)

/-- Instance of C8: the sample world without `ca.crt` is started with a port argument and
a `PORT` variable; its run reads `ca.crt` and does nothing else. -/
theorem fixed_files_and_address_witness :
    sampleWorldNoCA.args = ["-port", "9000"] ∧
      (run sampleLib sampleWorldNoCA 10 init).effects = [.readFile "ca.crt"] := by
  refine ⟨rfl, ?_⟩
  rcases (fixed_files_and_address sampleLib sampleWorldNoCA).1 10 (le_refl 10) with
    ⟨_, _, h⟩ | ⟨b, _, hb, _⟩
  · exact h
  · cases hb
end MTLS
